import Mathlib

/-!
The jenkins-exporter client: job-tree flattening and stage extraction

A shallow embedding of `internal/jenkins/builds.go` and
`internal/jenkins/stages.go`.

Conventions of the embedding:

* Go `int64` values (`time.Duration` included) are integers (`Int`); the one
  arithmetic operation of the code, `time.Duration(x) * time.Millisecond`, is
  the two's-complement product `mulInt64`.
* A Go `error` is identified with its message (`GoError`).
* A slice is a `List`; the `nil` slice is the empty list.
* The raw response shapes hold the decoded records themselves: an element of
  `Actions`, `WorkflowJobBuilds`, `MultiBranchJobs`, `Jobs` or `Stages` is the
  record a non-nil pointer of the Go slice points to. Slices with nil pointers
  (JSON `null` entries) are the subject of the namespace `Ptr`, whose
  transformations can panic; `ptr_respRawToBuildsRun_toPtr` and
  `ptr_respWFAPIRawToStages_toPtr` show that they agree with the ones over
  records on every response without nil entries.
* The logger is a list of messages, the transport `do` a function of method
  and URL, and every call of the transport is recorded in a trace.
-/

namespace Jenkins

open List

/-! ## Machine integers and durations -/

/-- A Go error value, identified with the text of its message. -/
abbrev GoError := String

/-- Equality of Go results is decidable when it is on both components. -/
instance instDecidableEqExcept {ε α : Type} [DecidableEq ε] [DecidableEq α] :
    DecidableEq (Except ε α)
  | .ok a, .ok b => if h : a = b then isTrue (by rw [h]) else isFalse (fun h' => h (by cases h'; rfl))
  | .error a, .error b =>
    if h : a = b then isTrue (by rw [h]) else isFalse (fun h' => h (by cases h'; rfl))
  | .ok _, .error _ => isFalse (fun h => by cases h)
  | .error _, .ok _ => isFalse (fun h => by cases h)

/-- The value in the `int64` range that is congruent to `x` modulo `2^64`. -/
def wrapInt64 (x : Int) : Int := (x + 2 ^ 63) % 2 ^ 64 - 2 ^ 63

/-- Membership in the range of Go's `int64`. -/
def inInt64 (x : Int) : Prop := -(2 ^ 63) ≤ x ∧ x < 2 ^ 63

instance (x : Int) : Decidable (inInt64 x) := by
  unfold inInt64
  exact inferInstance

/-- Go's `*` on `int64` operands: the product, wrapped around on overflow. -/
def mulInt64 (a b : Int) : Int := wrapInt64 (a * b)

/-- Go's `time.Millisecond`, a `time.Duration` counted in nanoseconds. -/
def Millisecond : Int := 1000000

/-! ## `strconv.Atoi` (Go standard library, 64-bit `int`) -/

/-- The value of a run of ASCII decimal digits, `none` when a character is not
a digit. The accumulator is unbounded; the range check comes afterwards. -/
def digitsValue : List Char → Nat → Option Nat
  | [], acc => some acc
  | ch :: rest, acc =>
    if 48 ≤ ch.toNat ∧ ch.toNat ≤ 57 then digitsValue rest (acc * 10 + (ch.toNat - 48))
    else none

/-- The unsigned part of a decimal integer: at least one character, all of
them decimal digits. -/
def parseMagnitude (ds : List Char) : Option Nat :=
  if ds = [] then none else digitsValue ds 0

/-- Go's `strconv.Atoi` on a platform whose `int` has 64 bits: an optional
sign `+` or `-`, then one or more decimal digits, the value lying in
`[-2^63, 2^63 - 1]`. The result is `none` when `Atoi` returns an error; the
caller tests the error against `nil` only, so the error value is not kept. -/
def Atoi (s : String) : Option Int :=
  match s.data with
  | [] => none
  | ch :: rest =>
    if ch = '-' then
      match parseMagnitude rest with
      | none => none
      | some n => if n ≤ 2 ^ 63 then some (-(n : Int)) else none
    else if ch = '+' then
      match parseMagnitude rest with
      | none => none
      | some n => if n < 2 ^ 63 then some (n : Int) else none
    else
      match parseMagnitude (ch :: rest) with
      | none => none
      | some n => if n < 2 ^ 63 then some (n : Int) else none

/-! ## Raw response shapes and the domain model (`builds.go`) -/

/-- One element of a build's `actions` list. -/
structure actionRawResp where
  Class : String
  WaitingTimeMillis : Int
  BuildableTimeMillis : Int
  BlockedTimeMillis : Int
  ExecutingTimeMillis : Int
  BuildingDurationMillis : Int
  deriving DecidableEq, Repr

/-- One element of a job's `builds` list. -/
structure buildRawResp where
  ID : String
  Actions : List actionRawResp
  Result : String
  deriving DecidableEq, Repr

/-- A job node: its name, its builds and its child job nodes. -/
inductive jobRawResp where
  | mk (Name : String) (WorkflowJobBuilds : List buildRawResp)
      (MultiBranchJobs : List jobRawResp)

instance : Inhabited jobRawResp := ⟨.mk "" [] []⟩

/-- Field `Name` of a job node. -/
def jobRawResp.Name : jobRawResp → String
  | .mk n _ _ => n

/-- Field `WorkflowJobBuilds` of a job node. -/
def jobRawResp.WorkflowJobBuilds : jobRawResp → List buildRawResp
  | .mk _ bs _ => bs

/-- Field `MultiBranchJobs` of a job node. -/
def jobRawResp.MultiBranchJobs : jobRawResp → List jobRawResp
  | .mk _ _ js => js

/-- The decoded job-tree response. -/
structure respRaw where
  Jobs : List jobRawResp

/-- A flattened build record. -/
structure Build where
  FolderName : String
  JobName : String
  BranchName : String
  SubBranchName : String
  ID : Int
  BuildableTime : Int
  WaitingTime : Int
  BlockedTime : Int
  ExecutingTime : Int
  BuildingDuration : Int
  Result : String
  deriving DecidableEq, Repr

/-- The discriminator of the timing-metrics action (`metricClass`). -/
def metricClass : String := "jenkins.metrics.impl.TimeInQueueAction"

/-- The loop of `buildRawToBuild` over the remaining actions of `rawBuild`:
actions of another class are passed over, the first one of class `metricClass`
decides the result, and running off the end is the metrics-not-found error. -/
def buildRawToBuild.loop (folderName jobName branchName subBranchName : String)
    (rawBuild : buildRawResp) : List actionRawResp → Except GoError Build
  | [] => .error "could not find metrics in Actions slice"
  | a :: rest =>
    if a.Class ≠ metricClass then
      buildRawToBuild.loop folderName jobName branchName subBranchName rawBuild rest
    else
      match Atoi rawBuild.ID with
      | none => .error ("could not convert id '" ++ rawBuild.ID ++ "' to int64")
      | some intID =>
        .ok
          { FolderName := folderName
            JobName := jobName
            BranchName := branchName
            SubBranchName := subBranchName
            ID := intID
            BuildableTime := mulInt64 a.BuildableTimeMillis Millisecond
            WaitingTime := mulInt64 a.WaitingTimeMillis Millisecond
            BlockedTime := mulInt64 a.BlockedTimeMillis Millisecond
            ExecutingTime := mulInt64 a.ExecutingTimeMillis Millisecond
            BuildingDuration := mulInt64 a.BuildingDurationMillis Millisecond
            Result := rawBuild.Result }

/-- The method `buildRawToBuild` (its receiver is not used by the body). -/
def buildRawToBuild (folderName jobName branchName subBranchName : String)
    (rawBuild : buildRawResp) : Except GoError Build :=
  buildRawToBuild.loop folderName jobName branchName subBranchName rawBuild rawBuild.Actions

/-- The function `buildIsInProgress`. -/
def buildIsInProgress (b : buildRawResp) : Bool := b.Result == ""

/-- The two things `respRawToBuilds` accumulates: the result slice `res` and
the lines handed to `c.logger.Printf`. -/
structure WalkState where
  res : List Build
  log : List String
  deriving DecidableEq, Repr

/-- The run of `respRawToBuilds`: four nested loops over the job levels, each
with its own loop over the builds of the node. -/
def respRawToBuildsRun (raw : respRaw) (removeInProgressBuilds : Bool) : WalkState :=
  raw.Jobs.foldl (fun st job =>
    let st := job.WorkflowJobBuilds.foldl (fun st rawBuild =>
      if removeInProgressBuilds && buildIsInProgress rawBuild then st
      else
        match buildRawToBuild job.Name "" "" "" rawBuild with
        | .error err =>
          { st with log := st.log ++
              ["skipping build " ++ job.Name ++ "/" ++ rawBuild.ID ++ ": " ++ err] }
        | .ok b => { st with res := st.res ++ [b] }) st
    job.MultiBranchJobs.foldl (fun st multibranchJob =>
      let st := multibranchJob.WorkflowJobBuilds.foldl (fun st rawBuild =>
        if removeInProgressBuilds && buildIsInProgress rawBuild then st
        else
          match buildRawToBuild job.Name multibranchJob.Name "" "" rawBuild with
          | .error err =>
            { st with log := st.log ++
                ["skipping build " ++ job.Name ++ "/" ++ multibranchJob.Name ++ "/" ++
                  rawBuild.ID ++ ": " ++ err] }
          | .ok b => { st with res := st.res ++ [b] }) st
      multibranchJob.MultiBranchJobs.foldl (fun st multibranchJobChild =>
        let st := multibranchJobChild.WorkflowJobBuilds.foldl (fun st rawBuild =>
          if removeInProgressBuilds && buildIsInProgress rawBuild then st
          else
            match buildRawToBuild job.Name multibranchJob.Name multibranchJobChild.Name ""
                rawBuild with
            | .error err =>
              { st with log := st.log ++
                  ["skipping build " ++ job.Name ++ "/" ++ multibranchJob.Name ++ "/" ++
                    multibranchJobChild.Name ++ "/" ++ rawBuild.ID ++ ": " ++ err] }
            | .ok b => { st with res := st.res ++ [b] }) st
        multibranchJobChild.MultiBranchJobs.foldl (fun st multibranchJobSubChild =>
          multibranchJobSubChild.WorkflowJobBuilds.foldl (fun st rawBuild =>
            if removeInProgressBuilds && buildIsInProgress rawBuild then st
            else
              match buildRawToBuild job.Name multibranchJob.Name multibranchJobChild.Name
                  multibranchJobSubChild.Name rawBuild with
              | .error err =>
                { st with log := st.log ++
                    ["skipping build " ++ job.Name ++ "/" ++ multibranchJob.Name ++ "/" ++
                      multibranchJobChild.Name ++ "/" ++ multibranchJobSubChild.Name ++ "/" ++
                      rawBuild.ID ++ ": " ++ err] }
              | .ok b => { st with res := st.res ++ [b] }) st) st) st) st)
    { res := [], log := [] }

/-- The value `respRawToBuilds` returns. -/
def respRawToBuilds (raw : respRaw) (removeInProgressBuilds : Bool) : List Build :=
  (respRawToBuildsRun raw removeInProgressBuilds).res

/-- The lines `respRawToBuilds` hands to the logger, in order. -/
def respRawToBuildsLog (raw : respRaw) (removeInProgressBuilds : Bool) : List String :=
  (respRawToBuildsRun raw removeInProgressBuilds).log

/-! ## Stage shapes and `respWFAPIRawToStages` (`stages.go`) -/

/-- One element of the `stages` list of a build's workflow response. -/
structure respWFAPIStageRaw where
  Name : String
  Status : String
  DurationMillis : Int
  deriving DecidableEq, Repr

/-- The decoded workflow response of one build. -/
structure respWFAPIRaw where
  Stages : List respWFAPIStageRaw
  deriving DecidableEq, Repr

/-- A flattened stage record. -/
structure Stage where
  Name : String
  Status : String
  Duration : Int
  deriving DecidableEq, Repr

/-- The function `respWFAPIRawToStage`. -/
def respWFAPIRawToStage (raw : respWFAPIStageRaw) : Stage :=
  { Name := raw.Name
    Status := raw.Status
    Duration := mulInt64 raw.DurationMillis Millisecond }

/-- The loop of `respWFAPIRawToStages`: `res[i] = respWFAPIRawToStage(stage)`
for the remaining stages, `i` being the index of the next one. A slot of `res`
is `none` while it still holds the nil pointer `make` put there. -/
def respWFAPIRawToStages.loop :
    List respWFAPIStageRaw → Nat → List (Option Stage) → List (Option Stage)
  | [], _, res => res
  | stage :: rest, i, res =>
    respWFAPIRawToStages.loop rest (i + 1) (res.set i (some (respWFAPIRawToStage stage)))

/-- The function `respWFAPIRawToStages`: a slice of `len(resp.Stages)` nil
pointers, filled index by index. -/
def respWFAPIRawToStages (resp : respWFAPIRaw) : List (Option Stage) :=
  respWFAPIRawToStages.loop resp.Stages 0 (List.replicate resp.Stages.length none)

/-! ## The transport, `Builds` and `Stages` -/

/-- One call of the transport `c.do(method, url, &target)`. -/
structure Request where
  method : String
  url : String
  deriving DecidableEq, Repr

/-- The part of the client the entry points use: the server URL and the
transport `do`, one function for each target type it decodes into. The result
of a call is the error it returns or the value it decoded into the target. -/
structure Client where
  serverURL : String
  doRespRaw : String → String → Except GoError respRaw
  doRespWFAPIRaw : String → String → Except GoError respWFAPIRaw

/-- What a call of an entry point does: the two values it returns (`value` is
the slice, `err` the error, `none` for `nil`), the transport calls it made and
the lines it logged. -/
structure Outcome (α : Type) where
  value : List α
  err : Option GoError
  requests : List Request
  log : List String

/-- The constant `queryBuilds` of `Builds`. -/
def queryBuilds : String :=
  "builds[id,result,actions[_class,buildableTimeMillis,waitingTimeMillis,blockedTimeMillis,executingTimeMillis,buildingDurationMillis]]"

/-- The constant `endpoint` of `Builds`. -/
def endpoint : String :=
  "api/json?tree=jobs[name," ++ queryBuilds ++
    ",jobs[name," ++ queryBuilds ++ ",jobs[name," ++ queryBuilds ++ ",jobs[name," ++
    queryBuilds ++ "]]]]"

/-- The method `Builds`. -/
def Builds (c : Client) (inProgressBuilds : Bool) : Outcome Build :=
  match c.doRespRaw "GET" (c.serverURL ++ endpoint) with
  | .error err =>
    { value := [], err := some err, requests := [⟨"GET", c.serverURL ++ endpoint⟩], log := [] }
  | .ok resp =>
    let st := respRawToBuildsRun resp (!inProgressBuilds)
    { value := st.res, err := none, requests := [⟨"GET", c.serverURL ++ endpoint⟩],
      log := st.log }

/-- Go's `fmt.Sprint` on one `int64`: its decimal representation. -/
def Sprint (i : Int) : String := toString i

/-- The method `wfapiJobBuildURL`. Go's `url.JoinPath(base, elem...)` is the
parameter `joinPath`, which receives the base and the list of elements. -/
def wfapiJobBuildURL (joinPath : String → List String → Except GoError String) (c : Client)
    (folderName jobName branchName buildID : String) : Except GoError String :=
  if jobName = "" then
    joinPath c.serverURL ["job", folderName, buildID, "wfapi"]
  else if branchName = "" then
    joinPath c.serverURL ["job", folderName, "job", jobName, buildID, "wfapi"]
  else
    joinPath c.serverURL ["job", folderName, "job", jobName, "job", branchName, buildID, "wfapi"]

/-- The method `Stages`; `http.MethodGet` is the string `GET`. -/
def Stages (joinPath : String → List String → Except GoError String) (c : Client)
    (folderName jobName branchName : String) (buildID : Int) : Outcome (Option Stage) :=
  match wfapiJobBuildURL joinPath c folderName jobName branchName (Sprint buildID) with
  | .error err => { value := [], err := some err, requests := [], log := [] }
  | .ok wfapiURL =>
    match c.doRespWFAPIRaw "GET" wfapiURL with
    | .error err => { value := [], err := some err, requests := [⟨"GET", wfapiURL⟩], log := [] }
    | .ok resp =>
      { value := respWFAPIRawToStages resp, err := none, requests := [⟨"GET", wfapiURL⟩],
        log := [] }

/-! ## The walk as a function of the tree

Definitions used to state and prove properties of `respRawToBuilds`; they are
not part of the program. -/

/-- The records the build loop of one node appends: for each build that is not
skipped and on which `buildRawToBuild` succeeds, the record it returns. `path`
holds the names of the ancestor nodes from the top-level job down to the node;
the names beyond its length are the empty string. -/
def extractBuilds (removeInProgressBuilds : Bool) (path : List String)
    (builds : List buildRawResp) : List Build :=
  builds.filterMap fun rawBuild =>
    if removeInProgressBuilds && buildIsInProgress rawBuild then none
    else
      match buildRawToBuild (path.getD 0 "") (path.getD 1 "") (path.getD 2 "") (path.getD 3 "")
          rawBuild with
      | .error _ => none
      | .ok b => some b

/-- The records of the subtree of `node` when `levels` levels remain to be
visited and `path` holds the names of the ancestors of `node`. -/
def walkFrom (removeInProgressBuilds : Bool) : Nat → List String → jobRawResp → List Build
  | 0, _, _ => []
  | levels + 1, path, node =>
    extractBuilds removeInProgressBuilds (path ++ [node.Name]) node.WorkflowJobBuilds ++
      node.MultiBranchJobs.flatMap
        (walkFrom removeInProgressBuilds levels (path ++ [node.Name]))

/-- The nodes of level `k` in the subtree of `node`, the level of `node`
itself being 1, each with the names of the nodes on the way down to it; `path`
holds the names of the ancestors of `node`. -/
def nodesAtLevel : Nat → List String → jobRawResp → List (List String × jobRawResp)
  | 0, _, _ => []
  | 1, path, node => [(path ++ [node.Name], node)]
  | k + 2, path, node =>
    node.MultiBranchJobs.flatMap (nodesAtLevel (k + 1) (path ++ [node.Name]))

/-- The build nodes of level `k` of a response, top-level jobs being level 1,
each with the names of its ancestor nodes from the top-level job down to the
node that holds it. -/
def buildsAtLevel (k : Nat) (raw : respRaw) : List (List String × buildRawResp) :=
  (raw.Jobs.flatMap (nodesAtLevel k [])).flatMap fun pn =>
    pn.2.WorkflowJobBuilds.map fun rawBuild => (pn.1, rawBuild)

/-- The record of a build node with the names of its ancestors, when the
build is not skipped as in progress and `buildRawToBuild` succeeds on it. -/
def extractAt (removeInProgressBuilds : Bool) (pb : List String × buildRawResp) :
    Option Build :=
  if removeInProgressBuilds && buildIsInProgress pb.2 then none
  else
    match buildRawToBuild (pb.1.getD 0 "") (pb.1.getD 1 "") (pb.1.getD 2 "") (pb.1.getD 3 "")
        pb.2 with
    | .error _ => none
    | .ok b => some b

/-- A build node is extracted when it is not skipped as in progress and
`buildRawToBuild` succeeds on it. -/
def isExtracted (removeInProgressBuilds : Bool) (pb : List String × buildRawResp) : Bool :=
  (extractAt removeInProgressBuilds pb).isSome

/-- The records of the builds of level `k` in the subtree of `node`. -/
def levelRecords (removeInProgressBuilds : Bool) :
    Nat → List String → jobRawResp → List Build
  | 0, _, _ => []
  | 1, path, node =>
    extractBuilds removeInProgressBuilds (path ++ [node.Name]) node.WorkflowJobBuilds
  | k + 2, path, node =>
    node.MultiBranchJobs.flatMap
      (levelRecords removeInProgressBuilds (k + 1) (path ++ [node.Name]))

/-- The records of the builds of levels 1 to `n` in the subtree of `node`,
level after level. -/
def recordsUpTo (removeInProgressBuilds : Bool) :
    Nat → List String → jobRawResp → List Build
  | 0, _, _ => []
  | n + 1, path, node =>
    recordsUpTo removeInProgressBuilds n path node ++
      levelRecords removeInProgressBuilds (n + 1) path node

/-- The millisecond counts whose product with `Millisecond` lies in the
`int64` range: `2^63 / 10^6` is `9223372036854.775808`. -/
def msInRange (ms : Int) : Prop := -9223372036854 ≤ ms ∧ ms ≤ 9223372036854

instance (ms : Int) : Decidable (msInRange ms) := by
  unfold msInRange
  exact inferInstance

/-- The duration `d` is the `int64` product of the millisecond count `ms` and
`Millisecond` after wrap-around: it lies in the `int64` range, it differs from
the exact product by a multiple of `2^64`, and it is not the exact product
when `ms` is an `int64` outside `msInRange`. -/
def isWrappedProduct (ms d : Int) : Prop :=
  inInt64 d ∧ (d - ms * Millisecond) % 2 ^ 64 = 0 ∧
    (inInt64 ms → ¬ msInRange ms → d ≠ ms * Millisecond)

/-- A finished build whose action has a waiting time beyond `msInRange`. -/
def overflowBuild : buildRawResp :=
  { ID := "42"
    Actions := [{ Class := metricClass, WaitingTimeMillis := 9223372036855,
                  BuildableTimeMillis := 0, BlockedTimeMillis := 0,
                  ExecutingTimeMillis := 0, BuildingDurationMillis := 0 }]
    Result := "SUCCESS" }

/-- An ASCII decimal digit. -/
def isDigitChar (ch : Char) : Bool := decide (48 ≤ ch.toNat ∧ ch.toNat ≤ 57)

/-- An integer string: an optional sign `+` or `-`, then one or more decimal
digits. -/
def isIntegerString (s : String) : Bool :=
  match s.data with
  | [] => false
  | ch :: rest =>
    if ch = '-' ∨ ch = '+' then !rest.isEmpty && rest.all isDigitChar
    else (ch :: rest).all isDigitChar

/-- The tree `job'` is `job` with the build `x` inserted at some position of
the build list of one node of level `k`, the level of `job` itself being 1. -/
inductive InsertedInJob (x : buildRawResp) : Nat → jobRawResp → jobRawResp → Prop where
  | inNode (n : String) (B₁ B₂ : List buildRawResp) (K : List jobRawResp) :
    InsertedInJob x 1 (.mk n (B₁ ++ B₂) K) (.mk n (B₁ ++ x :: B₂) K)
  | inChild (n : String) (B : List buildRawResp) (K₁ K₂ : List jobRawResp) {k : Nat}
      {j j' : jobRawResp} (h : InsertedInJob x k j j') :
    InsertedInJob x (k + 1) (.mk n B (K₁ ++ j :: K₂)) (.mk n B (K₁ ++ j' :: K₂))

/-- The response `raw'` is `raw` with the build `x` inserted at some position
of the build list of one node of level `k`, top-level jobs being level 1. -/
def InsertedAtLevel (x : buildRawResp) (k : Nat) (raw raw' : respRaw) : Prop :=
  ∃ (J₁ : List jobRawResp) (j j' : jobRawResp) (J₂ : List jobRawResp),
    raw.Jobs = J₁ ++ j :: J₂ ∧ raw'.Jobs = J₁ ++ j' :: J₂ ∧ InsertedInJob x k j j'

/-- An action of class `metricClass` with a waiting time of 1.5 s and an
executing time of 9 s. -/
def sampleAction : actionRawResp :=
  { Class := metricClass, WaitingTimeMillis := 1500, BuildableTimeMillis := 0,
    BlockedTimeMillis := 0, ExecutingTimeMillis := 9000, BuildingDurationMillis := 0 }

/-- A finished build with id 42 that carries `sampleAction`. -/
def sampleBuild : buildRawResp :=
  { ID := "42", Actions := [sampleAction], Result := "SUCCESS" }

/-- An action of another class. -/
def causeAction : actionRawResp :=
  { Class := "hudson.model.CauseAction", WaitingTimeMillis := 0, BuildableTimeMillis := 0,
    BlockedTimeMillis := 0, ExecutingTimeMillis := 0, BuildingDurationMillis := 0 }

/-- A build without a timing-metrics action. -/
def buildWithoutMetrics : buildRawResp :=
  { ID := "7", Actions := [causeAction], Result := "FAILURE" }

/-- A build whose id is not a number. -/
def buildWithBadID : buildRawResp :=
  { ID := "x12", Actions := [causeAction, sampleAction], Result := "SUCCESS" }

/-- A response with builds at all four levels. -/
def sampleTree : respRaw :=
  { Jobs :=
      [.mk "infra" [sampleBuild]
        [.mk "api" [sampleBuild]
          [.mk "main" [sampleBuild] [.mk "hotfix" [sampleBuild] []]]]] }

/-- A client whose transport answers every job-tree request with
`sampleTree` and every workflow request with two stages. -/
def sampleClient : Client :=
  { serverURL := "https://ci.example.org"
    doRespRaw := fun _ _ => .ok sampleTree
    doRespWFAPIRaw := fun _ _ =>
      .ok { Stages := [{ Name := "checkout", Status := "SUCCESS", DurationMillis := 250 },
                       { Name := "test", Status := "FAILED", DurationMillis := 61000 }] } }

/-- A client whose transport fails on every request. -/
def failingClient : Client :=
  { serverURL := "https://ci.example.org"
    doRespRaw := fun _ _ => .error "connection refused"
    doRespWFAPIRaw := fun _ _ => .error "connection refused" }

/-- A joiner for witnesses: the base, then every element after a slash. This
is what `url.JoinPath` returns for a base without a trailing slash and
elements that need neither cleaning nor escaping. -/
def slashJoin (base : String) (elem : List String) : Except GoError String :=
  .ok (elem.foldl (fun acc e => acc ++ "/" ++ e) base)

/-- A joiner for witnesses that fails, as `url.JoinPath` does on a base it
cannot parse. -/
def failingJoin (_base : String) (_elem : List String) : Except GoError String :=
  .error "parse error"

/-! ## The transformations over slices of pointers

The slices of the raw shapes hold pointers, and the JSON decoder stores a nil
pointer for a `null` entry. Here an entry is an `Option`, `none` being the nil
pointer, and a transformation yields `none` when it dereferences one (a
run-time panic, after which nothing is returned). -/

namespace Ptr

/-- The struct `buildRawResp` with its slice of action pointers. -/
structure buildRawResp where
  ID : String
  Actions : List (Option actionRawResp)
  Result : String

/-- The struct `jobRawResp` with its slices of build and job pointers. -/
inductive jobRawResp where
  | mk (Name : String) (WorkflowJobBuilds : List (Option buildRawResp))
      (MultiBranchJobs : List (Option jobRawResp))

instance : Inhabited jobRawResp := ⟨.mk "" [] []⟩

/-- Field `Name` of a job node. -/
def jobRawResp.Name : jobRawResp → String
  | .mk n _ _ => n

/-- Field `WorkflowJobBuilds` of a job node. -/
def jobRawResp.WorkflowJobBuilds : jobRawResp → List (Option buildRawResp)
  | .mk _ bs _ => bs

/-- Field `MultiBranchJobs` of a job node. -/
def jobRawResp.MultiBranchJobs : jobRawResp → List (Option jobRawResp)
  | .mk _ _ js => js

/-- The struct `respRaw` with its slice of job pointers. -/
structure respRaw where
  Jobs : List (Option jobRawResp)

/-- The struct `respWFAPIRaw` with its slice of stage pointers. -/
structure respWFAPIRaw where
  Stages : List (Option respWFAPIStageRaw)

/-- The loop of `buildRawToBuild`; reading `a.Class` of a nil action panics. -/
def buildRawToBuild.loop (folderName jobName branchName subBranchName : String)
    (rawBuild : buildRawResp) : List (Option actionRawResp) → Option (Except GoError Build)
  | [] => some (.error "could not find metrics in Actions slice")
  | none :: _ => none
  | some a :: rest =>
    if a.Class ≠ metricClass then
      buildRawToBuild.loop folderName jobName branchName subBranchName rawBuild rest
    else
      match Atoi rawBuild.ID with
      | none => some (.error ("could not convert id '" ++ rawBuild.ID ++ "' to int64"))
      | some intID =>
        some (.ok
          { FolderName := folderName
            JobName := jobName
            BranchName := branchName
            SubBranchName := subBranchName
            ID := intID
            BuildableTime := mulInt64 a.BuildableTimeMillis Millisecond
            WaitingTime := mulInt64 a.WaitingTimeMillis Millisecond
            BlockedTime := mulInt64 a.BlockedTimeMillis Millisecond
            ExecutingTime := mulInt64 a.ExecutingTimeMillis Millisecond
            BuildingDuration := mulInt64 a.BuildingDurationMillis Millisecond
            Result := rawBuild.Result })

/-- The method `buildRawToBuild`; reading `rawBuild.Actions` of a nil build
panics. -/
def buildRawToBuild (folderName jobName branchName subBranchName : String)
    (rawBuild : Option buildRawResp) : Option (Except GoError Build) :=
  match rawBuild with
  | none => none
  | some rb => buildRawToBuild.loop folderName jobName branchName subBranchName rb rb.Actions

/-- The function `buildIsInProgress`; reading `b.Result` of a nil build
panics. -/
def buildIsInProgress (b : Option buildRawResp) : Option Bool :=
  match b with
  | none => none
  | some rb => some (rb.Result == "")

/-- The run of `respRawToBuilds`. A nil job panics at `job.WorkflowJobBuilds`.
A nil build panics in `buildIsInProgress` when the flag is set and in
`buildRawToBuild` when it is not, so the body of each build loop starts with
the case of the nil build. -/
def respRawToBuildsRun (raw : respRaw) (removeInProgressBuilds : Bool) : Option WalkState :=
  raw.Jobs.foldlM (fun st job =>
    match job with
    | none => none
    | some job =>
    match job.WorkflowJobBuilds.foldlM (fun st rawBuild =>
      match rawBuild with
      | none => none
      | some rb =>
        if removeInProgressBuilds && (rb.Result == "") then some st
        else
          match buildRawToBuild job.Name "" "" "" (some rb) with
          | none => none
          | some (.error err) =>
            some { st with log := st.log ++
              ["skipping build " ++ job.Name ++ "/" ++ rb.ID ++ ": " ++ err] }
          | some (.ok b) => some { st with res := st.res ++ [b] }) st with
    | none => none
    | some st =>
    job.MultiBranchJobs.foldlM (fun st multibranchJob =>
      match multibranchJob with
      | none => none
      | some multibranchJob =>
      match multibranchJob.WorkflowJobBuilds.foldlM (fun st rawBuild =>
        match rawBuild with
        | none => none
        | some rb =>
          if removeInProgressBuilds && (rb.Result == "") then some st
          else
            match buildRawToBuild job.Name multibranchJob.Name "" "" (some rb) with
            | none => none
            | some (.error err) =>
              some { st with log := st.log ++
                ["skipping build " ++ job.Name ++ "/" ++ multibranchJob.Name ++ "/" ++
                  rb.ID ++ ": " ++ err] }
            | some (.ok b) => some { st with res := st.res ++ [b] }) st with
      | none => none
      | some st =>
      multibranchJob.MultiBranchJobs.foldlM (fun st multibranchJobChild =>
        match multibranchJobChild with
        | none => none
        | some multibranchJobChild =>
        match multibranchJobChild.WorkflowJobBuilds.foldlM (fun st rawBuild =>
          match rawBuild with
          | none => none
          | some rb =>
            if removeInProgressBuilds && (rb.Result == "") then some st
            else
              match buildRawToBuild job.Name multibranchJob.Name multibranchJobChild.Name ""
                  (some rb) with
              | none => none
              | some (.error err) =>
                some { st with log := st.log ++
                  ["skipping build " ++ job.Name ++ "/" ++ multibranchJob.Name ++ "/" ++
                    multibranchJobChild.Name ++ "/" ++ rb.ID ++ ": " ++ err] }
              | some (.ok b) => some { st with res := st.res ++ [b] }) st with
        | none => none
        | some st =>
        multibranchJobChild.MultiBranchJobs.foldlM (fun st multibranchJobSubChild =>
          match multibranchJobSubChild with
          | none => none
          | some multibranchJobSubChild =>
          multibranchJobSubChild.WorkflowJobBuilds.foldlM (fun st rawBuild =>
            match rawBuild with
            | none => none
            | some rb =>
              if removeInProgressBuilds && (rb.Result == "") then some st
              else
                match buildRawToBuild job.Name multibranchJob.Name multibranchJobChild.Name
                    multibranchJobSubChild.Name (some rb) with
                | none => none
                | some (.error err) =>
                  some { st with log := st.log ++
                    ["skipping build " ++ job.Name ++ "/" ++ multibranchJob.Name ++ "/" ++
                      multibranchJobChild.Name ++ "/" ++ multibranchJobSubChild.Name ++ "/" ++
                      rb.ID ++ ": " ++ err] }
                | some (.ok b) => some { st with res := st.res ++ [b] }) st) st) st) st)
    { res := [], log := [] }

/-- The value `respRawToBuilds` returns, when it returns. -/
def respRawToBuilds (raw : respRaw) (removeInProgressBuilds : Bool) : Option (List Build) :=
  (respRawToBuildsRun raw removeInProgressBuilds).map (fun st => st.res)

/-- The function `respWFAPIRawToStage`; reading `raw.Name` of a nil stage
panics. -/
def respWFAPIRawToStage (raw : Option respWFAPIStageRaw) : Option Stage :=
  match raw with
  | none => none
  | some r => some (Jenkins.respWFAPIRawToStage r)

/-- The loop of `respWFAPIRawToStages`. -/
def respWFAPIRawToStages.loop :
    List (Option respWFAPIStageRaw) → Nat → List (Option Stage) → Option (List (Option Stage))
  | [], _, res => some res
  | stage :: rest, i, res =>
    match respWFAPIRawToStage stage with
    | none => none
    | some s => respWFAPIRawToStages.loop rest (i + 1) (res.set i (some s))

/-- The function `respWFAPIRawToStages`. -/
def respWFAPIRawToStages (resp : respWFAPIRaw) : Option (List (Option Stage)) :=
  respWFAPIRawToStages.loop resp.Stages 0 (List.replicate resp.Stages.length none)

end Ptr

/-- A build record as the element of a slice of pointers: every action is
behind a non-nil pointer. -/
def toPtrBuild (b : buildRawResp) : Ptr.buildRawResp :=
  { ID := b.ID, Actions := b.Actions.map some, Result := b.Result }

mutual
/-- A job node as the element of a slice of pointers: every build and every
child job is behind a non-nil pointer. -/
def toPtrJob : jobRawResp → Ptr.jobRawResp
  | .mk n B K => .mk n (B.map fun b => some (toPtrBuild b)) (toPtrJobs K)
/-- The child jobs of a node as a slice of non-nil pointers. -/
def toPtrJobs : List jobRawResp → List (Option Ptr.jobRawResp)
  | [] => []
  | k :: ks => some (toPtrJob k) :: toPtrJobs ks
end

/-- A response without null entries as Go holds it. -/
def toPtrResp (raw : respRaw) : Ptr.respRaw := { Jobs := toPtrJobs raw.Jobs }

/-- A workflow response without null entries as Go holds it. -/
def toPtrWFAPI (resp : respWFAPIRaw) : Ptr.respWFAPIRaw := { Stages := resp.Stages.map some }

mutual
/-- The recursive traversal of the design notes, following the spec's words:
`walk node path depth` emits the node's own builds, filtered and extracted in
list order with `path` (the names from the top-level job down to `node`), and
then, if `depth < 4`, the walks of its child nodes. -/
def walk (removeInProgressBuilds : Bool) : jobRawResp → List String → Nat → List Build
  | .mk _ builds children, path, depth =>
    extractBuilds removeInProgressBuilds path builds ++
      (if depth < 4 then walkChildren removeInProgressBuilds children path (depth + 1)
       else [])
/-- The walks of the child nodes in list order, each with the path extended by
the child's name. -/
def walkChildren (removeInProgressBuilds : Bool) :
    List jobRawResp → List String → Nat → List Build
  | [], _, _ => []
  | child :: rest, path, depth =>
    walk removeInProgressBuilds child (path ++ [child.Name]) depth ++
      walkChildren removeInProgressBuilds rest path depth
end

/-- The node `node` with everything below `levels` further levels cut off:
the children of the nodes `levels` levels below `node` are dropped. -/
def truncateJob : Nat → jobRawResp → jobRawResp
  | 0, node => .mk node.Name node.WorkflowJobBuilds []
  | levels + 1, node =>
    .mk node.Name node.WorkflowJobBuilds (node.MultiBranchJobs.map (truncateJob levels))

/-- Levels 1 to 4 of a response: names, builds and child lists of the first
three levels, names and builds of the fourth. -/
def firstFourLevels (raw : respRaw) : respRaw :=
  { Jobs := raw.Jobs.map (truncateJob 3) }

/-- The response `sampleTree` with a fifth level below `hotfix`. -/
def deepTree : respRaw :=
  { Jobs :=
      [.mk "infra" [sampleBuild]
        [.mk "api" [sampleBuild]
          [.mk "main" [sampleBuild]
            [.mk "hotfix" [sampleBuild] [.mk "fifth" [sampleBuild] []]]]]] }

/-- A finished build whose id is the string `-5`. -/
def buildWithNegativeID : buildRawResp :=
  { ID := "-5", Actions := [sampleAction], Result := "SUCCESS" }

/-- A second action of class `metricClass`, with other timings. -/
def laterAction : actionRawResp :=
  { Class := metricClass, WaitingTimeMillis := 1, BuildableTimeMillis := 2,
    BlockedTimeMillis := 3, ExecutingTimeMillis := 4, BuildingDurationMillis := 5 }

/-- The response of the scenario: one top-level job `infra` without children,
holding `sampleBuild`. -/
def infraResponse : respRaw := { Jobs := [.mk "infra" [sampleBuild] []] }

/-- The same response with the build still in progress: its result is the
empty string. -/
def infraInProgressResponse : respRaw :=
  { Jobs := [.mk "infra" [{ ID := "42", Actions := [sampleAction], Result := "" }] []] }

/-- A client whose transport answers every job-tree request with
`infraResponse`. -/
def infraClient : Client :=
  { serverURL := "https://ci.example.org/"
    doRespRaw := fun _ _ => .ok infraResponse
    doRespWFAPIRaw := fun _ _ => .error "not a workflow" }

/-- A client whose transport answers every job-tree request with
`infraInProgressResponse`. -/
def infraInProgressClient : Client :=
  { serverURL := "https://ci.example.org/"
    doRespRaw := fun _ _ => .ok infraInProgressResponse
    doRespWFAPIRaw := fun _ _ => .error "not a workflow" }

/-- A build node is visited when it is not skipped as in progress. -/
def isVisited (removeInProgressBuilds : Bool) (pb : List String × buildRawResp) : Bool :=
  !(removeInProgressBuilds && buildIsInProgress pb.2)

/-- The diagnostic of a build node with the names of its ancestors, when the
build is not skipped as in progress and `buildRawToBuild` fails on it: the
slash-joined names, the build id and the error. -/
def diagnosticAt (removeInProgressBuilds : Bool) (pb : List String × buildRawResp) :
    Option String :=
  if removeInProgressBuilds && buildIsInProgress pb.2 then none
  else
    match buildRawToBuild (pb.1.getD 0 "") (pb.1.getD 1 "") (pb.1.getD 2 "") (pb.1.getD 3 "")
        pb.2 with
    | .error err =>
      some ("skipping build " ++ String.intercalate "/" pb.1 ++ "/" ++ pb.2.ID ++ ": " ++ err)
    | .ok _ => none

/-- The diagnostics the build loop of one node logs. -/
def diagnosticsOf (removeInProgressBuilds : Bool) (path : List String)
    (builds : List buildRawResp) : List String :=
  builds.filterMap fun rawBuild => diagnosticAt removeInProgressBuilds (path, rawBuild)

/-- What a walk of `levels` levels collects in the subtree of `node` when the
build loop of a node with the names `path` and the builds `bs` contributes
`g path bs`. -/
def walkWith {β : Type} (g : List String → List buildRawResp → List β) :
    Nat → List String → jobRawResp → List β
  | 0, _, _ => []
  | levels + 1, path, node =>
    g (path ++ [node.Name]) node.WorkflowJobBuilds ++
      node.MultiBranchJobs.flatMap (walkWith g levels (path ++ [node.Name]))

/-- The contributions of the nodes of level `k` in the subtree of `node`. -/
def levelWith {β : Type} (g : List String → List buildRawResp → List β) :
    Nat → List String → jobRawResp → List β
  | 0, _, _ => []
  | 1, path, node => g (path ++ [node.Name]) node.WorkflowJobBuilds
  | k + 2, path, node =>
    node.MultiBranchJobs.flatMap (levelWith g (k + 1) (path ++ [node.Name]))

/-- The contributions of the nodes of levels 1 to `n`, level after level. -/
def upToWith {β : Type} (g : List String → List buildRawResp → List β) :
    Nat → List String → jobRawResp → List β
  | 0, _, _ => []
  | n + 1, path, node => upToWith g n path node ++ levelWith g (n + 1) path node

/-- An in-progress build with a malformed id and no action at all. -/
def brokenInProgressBuild : buildRawResp := { ID := "x12", Actions := [], Result := "" }

/-- A response with a failing build at levels 1 and 3. -/
def noisyTree : respRaw :=
  { Jobs :=
      [.mk "infra" [sampleBuild, buildWithoutMetrics]
        [.mk "api" [sampleBuild] [.mk "main" [buildWithBadID, sampleBuild] []]]] }

/-! ## The walk of `respRawToBuilds` is `walkFrom` over four levels -/

theorem foldl_res_eq {α : Type} (F : WalkState → α → WalkState) (g : α → List Build)
    (h : ∀ st x, (F st x).res = st.res ++ g x) :
    ∀ (xs : List α) (st : WalkState), (xs.foldl F st).res = st.res ++ xs.flatMap g := by
  intro xs
  induction xs with
  | nil => intro st; simp
  | cons x xs ih => intro st; simp [List.foldl_cons, ih, h, List.flatMap_cons, List.append_assoc]

theorem buildLoop_res (removeInProgressBuilds : Bool) (f j b s : String)
    (msg : buildRawResp → GoError → String) (builds : List buildRawResp) (st : WalkState) :
    (builds.foldl (fun st rawBuild =>
      if removeInProgressBuilds && buildIsInProgress rawBuild then st
      else
        match buildRawToBuild f j b s rawBuild with
        | .error err => { st with log := st.log ++ [msg rawBuild err] }
        | .ok b => { st with res := st.res ++ [b] }) st).res =
      st.res ++ extractBuilds removeInProgressBuilds [f, j, b, s] builds := by
  induction builds generalizing st with
  | nil => simp [extractBuilds]
  | cons x xs ih =>
    rw [List.foldl_cons, ih]
    unfold extractBuilds
    rw [List.filterMap_cons]
    by_cases hc : (removeInProgressBuilds && buildIsInProgress x) = true
    · simp [hc]
    · cases hb : buildRawToBuild f j b s x <;> simp [hc, hb]

theorem extractBuilds_pad1 (flag : Bool) (f : String) (bs : List buildRawResp) :
    extractBuilds flag [f, "", "", ""] bs = extractBuilds flag [f] bs := rfl
theorem extractBuilds_pad2 (flag : Bool) (f j : String) (bs : List buildRawResp) :
    extractBuilds flag [f, j, "", ""] bs = extractBuilds flag [f, j] bs := rfl
theorem extractBuilds_pad3 (flag : Bool) (f j b : String) (bs : List buildRawResp) :
    extractBuilds flag [f, j, b, ""] bs = extractBuilds flag [f, j, b] bs := rfl

theorem respRawToBuilds_eq_walk (raw : respRaw) (flag : Bool) :
    respRawToBuilds raw flag = raw.Jobs.flatMap (walkFrom flag 4 []) := by
  unfold respRawToBuilds respRawToBuildsRun
  rw [foldl_res_eq _ (walkFrom flag 4 [])]
  · simp
  intro st job
  try dsimp only
  rw [foldl_res_eq _ (walkFrom flag 3 [job.Name])]
  · rw [buildLoop_res flag job.Name "" "" "" (fun rb err => "skipping build " ++ job.Name ++ "/" ++ rb.ID ++ ": " ++ err)]
    simp [walkFrom, extractBuilds_pad1, List.append_assoc]
  intro st j2
  try dsimp only
  rw [foldl_res_eq _ (walkFrom flag 2 [job.Name, j2.Name])]
  · rw [buildLoop_res flag job.Name j2.Name "" "" (fun rb err => "skipping build " ++ job.Name ++ "/" ++ j2.Name ++ "/" ++ rb.ID ++ ": " ++ err)]
    simp [walkFrom, extractBuilds_pad2, List.append_assoc]
  intro st j3
  try dsimp only
  rw [foldl_res_eq _ (walkFrom flag 1 [job.Name, j2.Name, j3.Name])]
  · rw [buildLoop_res flag job.Name j2.Name j3.Name "" (fun rb err => "skipping build " ++ job.Name ++ "/" ++ j2.Name ++ "/" ++ j3.Name ++ "/" ++ rb.ID ++ ": " ++ err)]
    simp [walkFrom, extractBuilds_pad3, List.append_assoc]
  intro st j4
  rw [buildLoop_res flag job.Name j2.Name j3.Name j4.Name (fun rb err => "skipping build " ++ job.Name ++ "/" ++ j2.Name ++ "/" ++ j3.Name ++ "/" ++ j4.Name ++ "/" ++ rb.ID ++ ": " ++ err)]
  simp [walkFrom]

/-! ## Extraction of one build, and the in-progress filter -/

/-- The first action of class `metricClass` decides `buildRawToBuild`. -/
theorem buildRawToBuild_loop_eq (f j b s : String) (rb : buildRawResp)
    (as : List actionRawResp) :
    buildRawToBuild.loop f j b s rb as =
      match as.find? (fun a => a.Class == metricClass) with
      | none => .error "could not find metrics in Actions slice"
      | some a =>
        match Atoi rb.ID with
        | none => .error ("could not convert id '" ++ rb.ID ++ "' to int64")
        | some intID =>
          .ok ⟨f, j, b, s, intID, mulInt64 a.BuildableTimeMillis Millisecond,
            mulInt64 a.WaitingTimeMillis Millisecond, mulInt64 a.BlockedTimeMillis Millisecond,
            mulInt64 a.ExecutingTimeMillis Millisecond,
            mulInt64 a.BuildingDurationMillis Millisecond, rb.Result⟩ := by
  induction as with
  | nil => rfl
  | cons a rest ih =>
    unfold buildRawToBuild.loop
    by_cases h : a.Class = metricClass
    · simp [h, List.find?_cons]
    · simp [h, List.find?_cons, ih]

theorem buildRawToBuild_eq (f j b s : String) (rb : buildRawResp) :
    buildRawToBuild f j b s rb =
      match rb.Actions.find? (fun a => a.Class == metricClass) with
      | none => .error "could not find metrics in Actions slice"
      | some a =>
        match Atoi rb.ID with
        | none => .error ("could not convert id '" ++ rb.ID ++ "' to int64")
        | some intID =>
          .ok ⟨f, j, b, s, intID, mulInt64 a.BuildableTimeMillis Millisecond,
            mulInt64 a.WaitingTimeMillis Millisecond, mulInt64 a.BlockedTimeMillis Millisecond,
            mulInt64 a.ExecutingTimeMillis Millisecond,
            mulInt64 a.BuildingDurationMillis Millisecond, rb.Result⟩ :=
  buildRawToBuild_loop_eq f j b s rb rb.Actions

theorem buildRawToBuild_ok_result {f j b s : String} {rb : buildRawResp} {r : Build}
    (h : buildRawToBuild f j b s rb = .ok r) : r.Result = rb.Result := by
  rw [buildRawToBuild_eq] at h
  split at h
  · cases h
  · split at h
    · cases h
    · cases h; rfl

/-- Whether `buildRawToBuild` fails does not depend on the path names. -/
theorem buildRawToBuild_error_path {f j b s : String} {rb : buildRawResp} {e : GoError}
    (h : buildRawToBuild f j b s rb = .error e) (f' j' b' s' : String) :
    buildRawToBuild f' j' b' s' rb = .error e := by
  rw [buildRawToBuild_eq] at h ⊢
  cases hfind : rb.Actions.find? (fun a => a.Class == metricClass) with
  | none => rw [hfind] at h; exact h
  | some a =>
    rw [hfind] at h
    cases hat : Atoi rb.ID with
    | none => rw [hat] at h; exact h
    | some n => rw [hat] at h; cases h

theorem extractBuilds_filter (path : List String) (bs : List buildRawResp) :
    extractBuilds true path bs =
      (extractBuilds false path bs).filter (fun r => r.Result != "") := by
  unfold extractBuilds
  generalize path.getD 0 "" = f
  generalize path.getD 1 "" = j
  generalize path.getD 2 "" = b
  generalize path.getD 3 "" = s
  induction bs with
  | nil => rfl
  | cons x xs ih =>
    rw [List.filterMap_cons, List.filterMap_cons]
    cases hb : buildRawToBuild f j b s x with
    | error e =>
      by_cases hp : buildIsInProgress x = true
      · simpa [hp] using ih
      · simpa [hp] using ih
    | ok r =>
      have hr := buildRawToBuild_ok_result hb
      by_cases hp : buildIsInProgress x = true
      · have : r.Result = "" := by
          rw [hr]; simpa [buildIsInProgress] using hp
        simpa [hp, this] using ih
      · have : r.Result ≠ "" := by
          rw [hr]; simpa [buildIsInProgress] using hp
        simpa [hp, this] using ih

theorem walkFrom_filter (levels : Nat) (path : List String) (node : jobRawResp) :
    walkFrom true levels path node =
      (walkFrom false levels path node).filter (fun r => r.Result != "") := by
  induction levels generalizing path node with
  | zero => rfl
  | succ n ih =>
    simp only [walkFrom, List.filter_append, extractBuilds_filter]
    congr 1
    induction node.MultiBranchJobs with
    | nil => rfl
    | cons k ks ihk => simp only [List.flatMap_cons, List.filter_append, ih, ihk]

theorem flatMap_filter_walk (levels : Nat) (path : List String) (js : List jobRawResp) :
    js.flatMap (walkFrom true levels path) =
      (js.flatMap (walkFrom false levels path)).filter (fun r => r.Result != "") := by
  induction js with
  | nil => rfl
  | cons k ks ihk => simp only [List.flatMap_cons, List.filter_append, walkFrom_filter, ihk]

/-- C1: with in-progress builds removed, the walk returns exactly the records
of the unfiltered walk whose `Result` is not empty, in the same order, and
none with an empty `Result`; so `Builds(false)` is `Builds(true)` filtered on
a non-empty `Result`, for every client and every response it decodes. -/
theorem builds_removeInProgress_eq_filter (raw : respRaw) (c : Client) :
    respRawToBuilds raw true =
        (respRawToBuilds raw false).filter (fun r => r.Result != "") ∧
      (∀ r ∈ respRawToBuilds raw true, r.Result ≠ "") ∧
      (Builds c false).value = ((Builds c true).value).filter (fun r => r.Result != "") ∧
      (∀ r ∈ (Builds c false).value, r.Result ≠ "") := by
  have key : ∀ raw : respRaw, respRawToBuilds raw true =
      (respRawToBuilds raw false).filter (fun r => r.Result != "") := by
    intro raw
    rw [respRawToBuilds_eq_walk, respRawToBuilds_eq_walk, flatMap_filter_walk]
  have none_empty : ∀ raw : respRaw, ∀ r ∈ respRawToBuilds raw true, r.Result ≠ "" := by
    intro raw r hr
    rw [key raw, List.mem_filter] at hr
    simpa using hr.2
  refine ⟨key raw, none_empty raw, ?_, ?_⟩
  · unfold Builds
    cases c.doRespRaw "GET" (c.serverURL ++ endpoint) with
    | error e => rfl
    | ok resp => exact key resp
  · unfold Builds
    cases c.doRespRaw "GET" (c.serverURL ++ endpoint) with
    | error e => intro r hr; cases hr
    | ok resp => exact none_empty resp

/-! ## Millisecond conversion (C2) -/

theorem wrapInt64_of_inInt64 {x : Int} (h : inInt64 x) : wrapInt64 x = x := by
  unfold inInt64 at h
  unfold wrapInt64
  rw [Int.emod_eq_of_lt (by omega) (by omega)]
  omega

theorem mulInt64_Millisecond {ms : Int} (h : msInRange ms) :
    mulInt64 ms Millisecond = ms * Millisecond := by
  unfold mulInt64
  apply wrapInt64_of_inInt64
  unfold msInRange at h
  unfold inInt64 Millisecond
  constructor <;> omega

/-- C2, counterexample: `9223372036855` is an `int64` millisecond count, yet
the `WaitingTime` that `buildRawToBuild` returns for it, and the `Duration`
that `respWFAPIRawToStage` returns for it, is the negative number
`-9223372036854551616`, not the count multiplied by one millisecond. -/
theorem duration_conversion_wraps_around :
    inInt64 9223372036855 ∧
      buildRawToBuild "infra" "" "" ""
          { ID := "42"
            Actions := [{ Class := metricClass, WaitingTimeMillis := 9223372036855,
                          BuildableTimeMillis := 0, BlockedTimeMillis := 0,
                          ExecutingTimeMillis := 0, BuildingDurationMillis := 0 }]
            Result := "SUCCESS" } =
        .ok { FolderName := "infra", JobName := "", BranchName := "", SubBranchName := "",
              ID := 42, BuildableTime := 0, WaitingTime := -9223372036854551616,
              BlockedTime := 0, ExecutingTime := 0, BuildingDuration := 0,
              Result := "SUCCESS" } ∧
      (respWFAPIRawToStage
          { Name := "build", Status := "SUCCESS", DurationMillis := 9223372036855 }).Duration =
        -9223372036854551616 ∧
      (9223372036855 : Int) * Millisecond ≠ -9223372036854551616 := by
  decide

theorem mulInt64_Millisecond_wraps (ms : Int) :
    isWrappedProduct ms (mulInt64 ms Millisecond) := by
  unfold isWrappedProduct mulInt64 wrapInt64 inInt64 msInRange Millisecond
  refine ⟨⟨by omega, by omega⟩, by omega, ?_⟩
  intro _ hout
  omega

/-- C2, amended: when the id converts and `a` is the first action of class
`metricClass`, `buildRawToBuild` returns a record, and each duration field
whose millisecond count lies between `-9223372036854` and `9223372036854` is
exactly that count multiplied by `Millisecond`; the same holds for the
`Duration` of the record `respWFAPIRawToStage` returns. For every millisecond
count each of these durations is the `int64` product after wrap-around: a
value of the `int64` range that differs from the exact product by a multiple
of `2^64`, and that is not the exact product when the count is an `int64`
outside that range. -/
theorem duration_conversion_exact_in_range (f j b s : String) (rb : buildRawResp)
    (a : actionRawResp) (intID : Int) (stage : respWFAPIStageRaw)
    (hfind : rb.Actions.find? (fun a => a.Class == metricClass) = some a)
    (hid : Atoi rb.ID = some intID) :
    (∃ r, buildRawToBuild f j b s rb = .ok r ∧
      (msInRange a.BuildableTimeMillis →
        r.BuildableTime = a.BuildableTimeMillis * Millisecond) ∧
      (msInRange a.WaitingTimeMillis → r.WaitingTime = a.WaitingTimeMillis * Millisecond) ∧
      (msInRange a.BlockedTimeMillis → r.BlockedTime = a.BlockedTimeMillis * Millisecond) ∧
      (msInRange a.ExecutingTimeMillis →
        r.ExecutingTime = a.ExecutingTimeMillis * Millisecond) ∧
      (msInRange a.BuildingDurationMillis →
        r.BuildingDuration = a.BuildingDurationMillis * Millisecond) ∧
      isWrappedProduct a.BuildableTimeMillis r.BuildableTime ∧
      isWrappedProduct a.WaitingTimeMillis r.WaitingTime ∧
      isWrappedProduct a.BlockedTimeMillis r.BlockedTime ∧
      isWrappedProduct a.ExecutingTimeMillis r.ExecutingTime ∧
      isWrappedProduct a.BuildingDurationMillis r.BuildingDuration) ∧
    (msInRange stage.DurationMillis →
      (respWFAPIRawToStage stage).Duration = stage.DurationMillis * Millisecond) ∧
    isWrappedProduct stage.DurationMillis (respWFAPIRawToStage stage).Duration := by
  refine ⟨?_, fun h => mulInt64_Millisecond h, mulInt64_Millisecond_wraps _⟩
  rw [buildRawToBuild_eq, hfind]
  simp only [hid]
  exact ⟨_, rfl, fun h => mulInt64_Millisecond h, fun h => mulInt64_Millisecond h,
    fun h => mulInt64_Millisecond h, fun h => mulInt64_Millisecond h,
    fun h => mulInt64_Millisecond h, mulInt64_Millisecond_wraps _,
    mulInt64_Millisecond_wraps _, mulInt64_Millisecond_wraps _,
    mulInt64_Millisecond_wraps _, mulInt64_Millisecond_wraps _⟩

/-- C2, witness: `sampleBuild`, whose action has a waiting time of 1500 ms and
an executing time of 9000 ms, and a stage of 250 ms, are converted exactly;
the waiting time of `overflowBuild` and a stage of 9223372036855 ms are not. -/
theorem duration_conversion_exact_in_range_witness :
    (∃ r, buildRawToBuild "infra" "" "" "" sampleBuild = .ok r ∧
      r.WaitingTime = 1500 * Millisecond ∧ r.ExecutingTime = 9000 * Millisecond) ∧
    (respWFAPIRawToStage
        { Name := "checkout", Status := "SUCCESS", DurationMillis := 250 }).Duration =
      250 * Millisecond ∧
    (∃ r, buildRawToBuild "infra" "" "" "" overflowBuild = .ok r ∧
      inInt64 r.WaitingTime ∧ r.WaitingTime ≠ 9223372036855 * Millisecond) ∧
    (respWFAPIRawToStage
        { Name := "build", Status := "SUCCESS", DurationMillis := 9223372036855 }).Duration ≠
      9223372036855 * Millisecond :=
  have h := duration_conversion_exact_in_range "infra" "" "" "" sampleBuild sampleAction 42
    { Name := "checkout", Status := "SUCCESS", DurationMillis := 250 } (by decide) (by decide)
  have h' := duration_conversion_exact_in_range "infra" "" "" "" overflowBuild
    { Class := metricClass, WaitingTimeMillis := 9223372036855, BuildableTimeMillis := 0,
      BlockedTimeMillis := 0, ExecutingTimeMillis := 0, BuildingDurationMillis := 0 } 42
    { Name := "build", Status := "SUCCESS", DurationMillis := 9223372036855 }
    (by decide) (by decide)
  ⟨h.1.elim fun r hr => ⟨r, hr.1, hr.2.2.1 (by decide), hr.2.2.2.2.1 (by decide)⟩,
    h.2.1 (by decide),
    h'.1.elim fun r hr =>
      ⟨r, hr.1, hr.2.2.2.2.2.2.2.1.1, hr.2.2.2.2.2.2.2.1.2.2 (by decide) (by decide)⟩,
    h'.2.2.2.2 (by decide) (by decide)⟩

/-! ## Builds that fail to extract (C3) -/

theorem extractBuilds_insert_failing {f j b s : String} {x : buildRawResp} {e : GoError}
    (hfail : buildRawToBuild f j b s x = .error e) (flag : Bool) (path : List String)
    (B₁ B₂ : List buildRawResp) :
    extractBuilds flag path (B₁ ++ x :: B₂) = extractBuilds flag path (B₁ ++ B₂) := by
  have hx := buildRawToBuild_error_path hfail (path.getD 0 "") (path.getD 1 "")
    (path.getD 2 "") (path.getD 3 "")
  unfold extractBuilds
  rw [List.filterMap_append, List.filterMap_append, List.filterMap_cons]
  rw [hx]
  cases hc : (flag && buildIsInProgress x) <;> rfl

theorem walkFrom_insert_failing {f j b s : String} {x : buildRawResp} {e : GoError}
    (hfail : buildRawToBuild f j b s x = .error e) (flag : Bool) {k : Nat}
    {job job' : jobRawResp} (h : InsertedInJob x k job job') :
    ∀ (levels : Nat) (path : List String),
      walkFrom flag levels path job' = walkFrom flag levels path job := by
  induction h with
  | inNode n B₁ B₂ K =>
    intro levels path
    cases levels with
    | zero => rfl
    | succ m =>
      simp only [walkFrom, jobRawResp.Name, jobRawResp.WorkflowJobBuilds,
        jobRawResp.MultiBranchJobs, extractBuilds_insert_failing hfail]
  | inChild n B K₁ K₂ _ ih =>
    intro levels path
    cases levels with
    | zero => rfl
    | succ m =>
      simp only [walkFrom, jobRawResp.Name, jobRawResp.WorkflowJobBuilds,
        jobRawResp.MultiBranchJobs, List.flatMap_append, List.flatMap_cons, ih]

theorem respRawToBuilds_insert_failing {f j b s : String} {x : buildRawResp} {e : GoError}
    (hfail : buildRawToBuild f j b s x = .error e) (flag : Bool) {k : Nat}
    {raw raw' : respRaw} (h : InsertedAtLevel x k raw raw') :
    respRawToBuilds raw' flag = respRawToBuilds raw flag := by
  obtain ⟨J₁, job, job', J₂, h₁, h₂, hins⟩ := h
  rw [respRawToBuilds_eq_walk, respRawToBuilds_eq_walk, h₁, h₂]
  simp only [List.flatMap_append, List.flatMap_cons, walkFrom_insert_failing hfail flag hins]

theorem find?_metric_eq_none {as : List actionRawResp}
    (h : ∀ a ∈ as, a.Class ≠ metricClass) :
    as.find? (fun a => a.Class == metricClass) = none := by
  rw [List.find?_eq_none]
  intro a ha
  simpa using h a ha

/-- C3: a build node without an action of class `metricClass` makes
`buildRawToBuild` fail with the metrics-not-found error, whatever its id, its
result and the path names; and a response that holds this build node at any
position of any node yields the same records as the response without it. -/
theorem buildRawToBuild_no_metrics (f j b s : String) (rb : buildRawResp)
    (h : ∀ a ∈ rb.Actions, a.Class ≠ metricClass) :
    buildRawToBuild f j b s rb = .error "could not find metrics in Actions slice" ∧
      ∀ (flag : Bool) (k : Nat) (raw raw' : respRaw), InsertedAtLevel rb k raw raw' →
        respRawToBuilds raw' flag = respRawToBuilds raw flag := by
  have herr : buildRawToBuild f j b s rb = .error "could not find metrics in Actions slice" := by
    rw [buildRawToBuild_eq, find?_metric_eq_none h]
  exact ⟨herr, fun flag k raw raw' hins => respRawToBuilds_insert_failing herr flag hins⟩

/-- C3, witness: `buildWithoutMetrics` put in front of the builds of the level-2
node `api` of `sampleTree`. -/
theorem buildRawToBuild_no_metrics_witness :
    buildRawToBuild "infra" "api" "" "" buildWithoutMetrics =
        .error "could not find metrics in Actions slice" ∧
      respRawToBuilds
          { Jobs :=
              [.mk "infra" [sampleBuild]
                [.mk "api" [buildWithoutMetrics, sampleBuild]
                  [.mk "main" [sampleBuild] [.mk "hotfix" [sampleBuild] []]]]] } true =
        respRawToBuilds sampleTree true :=
  have h := buildRawToBuild_no_metrics "infra" "api" "" "" buildWithoutMetrics (by decide)
  ⟨h.1, h.2 true 2 sampleTree _
    ⟨[], _, _, [], rfl, rfl,
      InsertedInJob.inChild "infra" [sampleBuild] [] []
        (InsertedInJob.inNode "api" [] [sampleBuild]
          [.mk "main" [sampleBuild] [.mk "hotfix" [sampleBuild] []]])⟩⟩

/-! ## Malformed ids and the partial-failure policy (C4, C5) -/

theorem digitsValue_isSome (ds : List Char) :
    ∀ acc : Nat, (digitsValue ds acc).isSome = ds.all isDigitChar := by
  induction ds with
  | nil => intro acc; rfl
  | cons ch rest ih =>
    intro acc
    unfold digitsValue
    by_cases h : 48 ≤ ch.toNat ∧ ch.toNat ≤ 57
    · simp [h, ih, isDigitChar]
    · simp [h, isDigitChar]

theorem parseMagnitude_ok {ds : List Char} {n : Nat} (h : parseMagnitude ds = some n) :
    (!ds.isEmpty && ds.all isDigitChar) = true := by
  unfold parseMagnitude at h
  by_cases hds : ds = []
  · simp [hds] at h
  · rw [if_neg hds] at h
    have hs := digitsValue_isSome ds 0
    rw [h] at hs
    cases ds with
    | nil => exact absurd rfl hds
    | cons c cs => simpa using hs.symm

/-- What `Atoi` converts is an integer string. -/
theorem isIntegerString_of_Atoi_ok {s : String} {n : Int} (h : Atoi s = some n) :
    isIntegerString s = true := by
  unfold Atoi at h
  unfold isIntegerString
  cases hs : s.data with
  | nil => rw [hs] at h; cases h
  | cons ch rest =>
    rw [hs] at h
    simp only at h ⊢
    by_cases hm : ch = '-'
    · rw [if_pos hm] at h
      rw [if_pos (Or.inl hm)]
      cases hp : parseMagnitude rest with
      | none => rw [hp] at h; cases h
      | some m => exact parseMagnitude_ok hp
    · rw [if_neg hm] at h
      by_cases hpl : ch = '+'
      · rw [if_pos hpl] at h
        rw [if_pos (Or.inr hpl)]
        cases hp : parseMagnitude rest with
        | none => rw [hp] at h; cases h
        | some m => exact parseMagnitude_ok hp
      · rw [if_neg hpl] at h
        rw [if_neg (by simp [hm, hpl])]
        cases hp : parseMagnitude (ch :: rest) with
        | none => rw [hp] at h; cases h
        | some m => simpa using parseMagnitude_ok hp

theorem find?_metric_isSome {as : List actionRawResp}
    (h : ∃ a ∈ as, a.Class = metricClass) :
    ∃ a, as.find? (fun a => a.Class == metricClass) = some a := by
  cases hf : as.find? (fun a => a.Class == metricClass) with
  | some a => exact ⟨a, rfl⟩
  | none =>
    rw [List.find?_eq_none] at hf
    obtain ⟨a, ha, hc⟩ := h
    exact absurd (by simpa using hc) (hf a ha)

/-- C4, counterexample: the id `x12` is not an integer string, yet for a build
node that has no action of class `metricClass` the error of `buildRawToBuild`
is the metrics-not-found error and not the parse error naming the id. -/
theorem bad_id_without_metrics_no_parse_error :
    isIntegerString "x12" = false ∧
      buildRawToBuild "infra" "" "" ""
          { ID := "x12", Actions := [causeAction], Result := "SUCCESS" } =
        .error "could not find metrics in Actions slice" ∧
      buildRawToBuild "infra" "" "" ""
          { ID := "x12", Actions := [causeAction], Result := "SUCCESS" } ≠
        .error "could not convert id 'x12' to int64" := by
  decide

/-- C4, amended: for a build node whose id is not an integer string,
`buildRawToBuild` fails with the parse error naming the id when the node has
an action of class `metricClass`, and with the metrics-not-found error when it
has none; either way a response that holds the node at any position of any
node yields the same records as the response without it. -/
theorem buildRawToBuild_bad_id (f j b s : String) (rb : buildRawResp)
    (hid : isIntegerString rb.ID = false) :
    ((∃ a ∈ rb.Actions, a.Class = metricClass) →
        buildRawToBuild f j b s rb =
          .error ("could not convert id '" ++ rb.ID ++ "' to int64")) ∧
      ((∀ a ∈ rb.Actions, a.Class ≠ metricClass) →
        buildRawToBuild f j b s rb = .error "could not find metrics in Actions slice") ∧
      ∀ (flag : Bool) (k : Nat) (raw raw' : respRaw), InsertedAtLevel rb k raw raw' →
        respRawToBuilds raw' flag = respRawToBuilds raw flag := by
  have hne : Atoi rb.ID = none := by
    cases h : Atoi rb.ID with
    | none => rfl
    | some n => rw [isIntegerString_of_Atoi_ok h] at hid; cases hid
  have h1 : (∃ a ∈ rb.Actions, a.Class = metricClass) →
      buildRawToBuild f j b s rb =
        .error ("could not convert id '" ++ rb.ID ++ "' to int64") := by
    intro hex
    obtain ⟨a, ha⟩ := find?_metric_isSome hex
    rw [buildRawToBuild_eq, ha]
    simp only [hne]
  have h2 : (∀ a ∈ rb.Actions, a.Class ≠ metricClass) →
      buildRawToBuild f j b s rb = .error "could not find metrics in Actions slice" := by
    intro hall
    rw [buildRawToBuild_eq, find?_metric_eq_none hall]
  refine ⟨h1, h2, ?_⟩
  intro flag k raw raw' hins
  by_cases hex : ∃ a ∈ rb.Actions, a.Class = metricClass
  · exact respRawToBuilds_insert_failing (h1 hex) flag hins
  · refine respRawToBuilds_insert_failing (h2 ?_) flag hins
    intro a ha hc
    exact hex ⟨a, ha, hc⟩

/-- C4, witness: `buildWithBadID` has an action of class `metricClass`; put
after the build of the top-level job of `sampleTree` it leaves the records
unchanged. -/
theorem buildRawToBuild_bad_id_witness :
    buildRawToBuild "infra" "" "" "" buildWithBadID =
        .error "could not convert id 'x12' to int64" ∧
      respRawToBuilds
          { Jobs :=
              [.mk "infra" [sampleBuild, buildWithBadID]
                [.mk "api" [sampleBuild]
                  [.mk "main" [sampleBuild] [.mk "hotfix" [sampleBuild] []]]]] } false =
        respRawToBuilds sampleTree false :=
  have h := buildRawToBuild_bad_id "infra" "" "" "" buildWithBadID (by decide)
  ⟨h.1 ⟨sampleAction, by decide, rfl⟩, h.2.2 false 1 sampleTree _
    ⟨[], _, _, [], rfl, rfl,
      InsertedInJob.inNode "infra" [sampleBuild] []
        [.mk "api" [sampleBuild] [.mk "main" [sampleBuild] [.mk "hotfix" [sampleBuild] []]]]⟩⟩

/-- C5: a build node on which `buildRawToBuild` fails, inserted at any position
of the build list of any node of the tree, leaves the sequence returned by
`respRawToBuilds` unchanged, for either value of the flag. -/
theorem failing_build_does_not_disturb_walk (f j b s : String) (x : buildRawResp)
    (e : GoError) (hfail : buildRawToBuild f j b s x = .error e) (flag : Bool) (k : Nat)
    (raw raw' : respRaw) (hins : InsertedAtLevel x k raw raw') :
    respRawToBuilds raw' flag = respRawToBuilds raw flag :=
  respRawToBuilds_insert_failing hfail flag hins

/-- C5, witness: `buildWithBadID` put in front of the build of the level-4 node
`hotfix` of `sampleTree`. -/
theorem failing_build_does_not_disturb_walk_witness :
    respRawToBuilds
        { Jobs :=
            [.mk "infra" [sampleBuild]
              [.mk "api" [sampleBuild]
                [.mk "main" [sampleBuild]
                  [.mk "hotfix" [buildWithBadID, sampleBuild] []]]]] } false =
      respRawToBuilds sampleTree false :=
  failing_build_does_not_disturb_walk "infra" "api" "main" "hotfix" buildWithBadID
    "could not convert id 'x12' to int64" (by decide) false 4 sampleTree _
    ⟨[], _, _, [], rfl, rfl,
      InsertedInJob.inChild "infra" [sampleBuild] [] []
        (InsertedInJob.inChild "api" [sampleBuild] [] []
          (InsertedInJob.inChild "main" [sampleBuild] [] []
            (InsertedInJob.inNode "hotfix" [] [sampleBuild] [])))⟩

/-! ## Builds and stage extraction (C6, C7) -/

/-- C6: when the transport call fails, `Builds` returns its error and the nil
list; when it succeeds with `resp`, `Builds` returns
`respRawToBuilds resp (!inProgressBuilds)` and the nil error; so an error is
never accompanied by a list. -/
theorem Builds_list_or_error (c : Client) (inProgressBuilds : Bool) :
    (∀ err, c.doRespRaw "GET" (c.serverURL ++ endpoint) = .error err →
        (Builds c inProgressBuilds).value = [] ∧
          (Builds c inProgressBuilds).err = some err) ∧
      (∀ resp, c.doRespRaw "GET" (c.serverURL ++ endpoint) = .ok resp →
        (Builds c inProgressBuilds).value = respRawToBuilds resp (!inProgressBuilds) ∧
          (Builds c inProgressBuilds).err = none) ∧
      ((Builds c inProgressBuilds).err ≠ none → (Builds c inProgressBuilds).value = []) := by
  unfold Builds
  cases h : c.doRespRaw "GET" (c.serverURL ++ endpoint) with
  | error e =>
    refine ⟨?_, ?_, ?_⟩
    · intro err herr; cases herr; exact ⟨rfl, rfl⟩
    · intro resp hresp; cases hresp
    · intro _; rfl
  | ok r =>
    refine ⟨?_, ?_, ?_⟩
    · intro err herr; cases herr
    · intro resp hresp; cases hresp; exact ⟨rfl, rfl⟩
    · intro hne; exact absurd rfl hne

/-- C6, witness: the failing client yields the transport error and no list,
the sample client the records of `sampleTree` and no error. -/
theorem Builds_list_or_error_witness :
    ((Builds failingClient true).value = [] ∧
        (Builds failingClient true).err = some "connection refused") ∧
      ((Builds sampleClient false).value = respRawToBuilds sampleTree true ∧
        (Builds sampleClient false).err = none) ∧
      (Builds failingClient false).value = [] :=
  ⟨(Builds_list_or_error failingClient true).1 "connection refused" rfl,
    (Builds_list_or_error sampleClient false).2.1 sampleTree rfl,
    (Builds_list_or_error failingClient false).2.2 (by decide)⟩

theorem respWFAPIRawToStages_loop_eq (stages : List respWFAPIStageRaw) :
    ∀ (pre rest : List (Option Stage)), rest.length = stages.length →
      respWFAPIRawToStages.loop stages pre.length (pre ++ rest) =
        pre ++ stages.map (fun s => some (respWFAPIRawToStage s)) := by
  induction stages with
  | nil =>
    intro pre rest h
    cases rest with
    | nil => rfl
    | cons r rs => cases h
  | cons stage stages ih =>
    intro pre rest h
    cases rest with
    | nil => cases h
    | cons r rs =>
      unfold respWFAPIRawToStages.loop
      have hset : (pre ++ r :: rs).set pre.length (some (respWFAPIRawToStage stage)) =
          (pre ++ [some (respWFAPIRawToStage stage)]) ++ rs := by
        simp
      have hlen : pre.length + 1 = (pre ++ [some (respWFAPIRawToStage stage)]).length := by
        simp
      rw [hset, hlen, ih _ rs (by simpa using h)]
      simp

theorem respWFAPIRawToStages_eq_map (resp : respWFAPIRaw) :
    respWFAPIRawToStages resp = resp.Stages.map (fun s => some (respWFAPIRawToStage s)) := by
  unfold respWFAPIRawToStages
  have h := respWFAPIRawToStages_loop_eq resp.Stages [] (List.replicate resp.Stages.length none)
    (by simp)
  simpa using h

/-- C7: `respWFAPIRawToStages` returns as many records as the response has
stages, and the record at index `i` is a non-nil `Stage` with the `Name` and
the `Status` of the stage at index `i`, and its converted duration. -/
theorem respWFAPIRawToStages_total_in_order (resp : respWFAPIRaw) :
    (respWFAPIRawToStages resp).length = resp.Stages.length ∧
      ∀ (i : Nat) (stage : respWFAPIStageRaw), resp.Stages[i]? = some stage →
        ∃ st : Stage, (respWFAPIRawToStages resp)[i]? = some (some st) ∧
          st.Name = stage.Name ∧ st.Status = stage.Status ∧
          st.Duration = mulInt64 stage.DurationMillis Millisecond := by
  rw [respWFAPIRawToStages_eq_map]
  refine ⟨by simp, ?_⟩
  intro i stage h
  refine ⟨respWFAPIRawToStage stage, ?_, rfl, rfl, rfl⟩
  rw [List.getElem?_map, h]
  rfl

/-- C7, witness: the second of two stages. -/
theorem respWFAPIRawToStages_total_in_order_witness :
    ∃ st : Stage,
      (respWFAPIRawToStages
          { Stages := [{ Name := "checkout", Status := "SUCCESS", DurationMillis := 250 },
                       { Name := "test", Status := "FAILED", DurationMillis := 61000 }] })[1]? =
        some (some st) ∧
      st.Name = "test" ∧ st.Status = "FAILED" ∧ st.Duration = mulInt64 61000 Millisecond :=
  (respWFAPIRawToStages_total_in_order
    { Stages := [{ Name := "checkout", Status := "SUCCESS", DurationMillis := 250 },
                 { Name := "test", Status := "FAILED", DurationMillis := 61000 }] }).2 1
    { Name := "test", Status := "FAILED", DurationMillis := 61000 } rfl

/-! ## Stage endpoints and the error policy of Stages (C8, C9) -/

theorem Stages_requests_of_url (joinPath : String → List String → Except GoError String)
    (c : Client) (f j b : String) (buildID : Int) (url : String)
    (h : wfapiJobBuildURL joinPath c f j b (Sprint buildID) = .ok url) :
    (Stages joinPath c f j b buildID).requests = [⟨"GET", url⟩] := by
  unfold Stages
  rw [h]
  cases hdo : c.doRespWFAPIRaw "GET" url with
  | error e => simp only [hdo]
  | ok resp => simp only [hdo]

/-- C8: `wfapiJobBuildURL` hands to `url.JoinPath` the server URL and the
elements `job, folder, id, wfapi` when `jobName` is empty (whatever
`branchName` is), `job, folder, job, jobName, id, wfapi` when only `branchName`
is empty, and `job, folder, job, jobName, job, branchName, id, wfapi`
otherwise; the one request of `Stages("infra", "", "", 42)` goes to the join
of `job, infra, 42, wfapi` and that of `Stages("infra", "api", "main", 42)` to
the join of `job, infra, job, api, job, main, 42, wfapi`. -/
theorem wfapiJobBuildURL_segments (joinPath : String → List String → Except GoError String)
    (c : Client) (folderName jobName branchName buildID : String) :
    (jobName = "" →
        wfapiJobBuildURL joinPath c folderName jobName branchName buildID =
          joinPath c.serverURL ["job", folderName, buildID, "wfapi"]) ∧
      (jobName ≠ "" → branchName = "" →
        wfapiJobBuildURL joinPath c folderName jobName branchName buildID =
          joinPath c.serverURL ["job", folderName, "job", jobName, buildID, "wfapi"]) ∧
      (jobName ≠ "" → branchName ≠ "" →
        wfapiJobBuildURL joinPath c folderName jobName branchName buildID =
          joinPath c.serverURL
            ["job", folderName, "job", jobName, "job", branchName, buildID, "wfapi"]) ∧
      (∀ url, joinPath c.serverURL ["job", "infra", "42", "wfapi"] = .ok url →
        (Stages joinPath c "infra" "" "" 42).requests = [⟨"GET", url⟩]) ∧
      (∀ url,
        joinPath c.serverURL ["job", "infra", "job", "api", "job", "main", "42", "wfapi"] =
            .ok url →
        (Stages joinPath c "infra" "api" "main" 42).requests = [⟨"GET", url⟩]) := by
  refine ⟨?_, ?_, ?_, ?_, ?_⟩
  · intro hj
    unfold wfapiJobBuildURL
    rw [if_pos hj]
  · intro hj hb
    unfold wfapiJobBuildURL
    rw [if_neg hj, if_pos hb]
  · intro hj hb
    unfold wfapiJobBuildURL
    rw [if_neg hj, if_neg hb]
  · intro url h
    exact Stages_requests_of_url joinPath c "infra" "" "" 42 url h
  · intro url h
    exact Stages_requests_of_url joinPath c "infra" "api" "main" 42 url h

/-- C8, witness: the three shapes of the element list, and the two requests of
the scenario against the server `https://ci.example.org`. -/
theorem wfapiJobBuildURL_segments_witness :
    wfapiJobBuildURL slashJoin sampleClient "infra" "" "main" "42" =
        .ok "https://ci.example.org/job/infra/42/wfapi" ∧
      wfapiJobBuildURL slashJoin sampleClient "infra" "api" "" "42" =
        .ok "https://ci.example.org/job/infra/job/api/42/wfapi" ∧
      wfapiJobBuildURL slashJoin sampleClient "infra" "api" "main" "42" =
        .ok "https://ci.example.org/job/infra/job/api/job/main/42/wfapi" ∧
      (Stages slashJoin sampleClient "infra" "" "" 42).requests =
        [⟨"GET", "https://ci.example.org/job/infra/42/wfapi"⟩] ∧
      (Stages slashJoin sampleClient "infra" "api" "main" 42).requests =
        [⟨"GET", "https://ci.example.org/job/infra/job/api/job/main/42/wfapi"⟩] :=
  ⟨((wfapiJobBuildURL_segments slashJoin sampleClient "infra" "" "main" "42").1 rfl).trans
      (by decide),
    ((wfapiJobBuildURL_segments slashJoin sampleClient "infra" "api" "" "42").2.1
      (by decide) rfl).trans (by decide),
    ((wfapiJobBuildURL_segments slashJoin sampleClient "infra" "api" "main" "42").2.2.1
      (by decide) (by decide)).trans (by decide),
    (wfapiJobBuildURL_segments slashJoin sampleClient "" "" "" "").2.2.2.1
      "https://ci.example.org/job/infra/42/wfapi" (by decide),
    (wfapiJobBuildURL_segments slashJoin sampleClient "" "" "" "").2.2.2.2
      "https://ci.example.org/job/infra/job/api/job/main/42/wfapi" (by decide)⟩

/-- C9: when the URL cannot be built, `Stages` returns that error and the nil
list without calling the transport; when the transport call fails, it returns
that error and the nil list; when both succeed, it returns
`respWFAPIRawToStages` of the decoded response and the nil error. -/
theorem Stages_no_absorption (joinPath : String → List String → Except GoError String)
    (c : Client) (folderName jobName branchName : String) (buildID : Int) :
    (∀ err,
        wfapiJobBuildURL joinPath c folderName jobName branchName (Sprint buildID) =
            .error err →
        (Stages joinPath c folderName jobName branchName buildID).value = [] ∧
          (Stages joinPath c folderName jobName branchName buildID).err = some err ∧
          (Stages joinPath c folderName jobName branchName buildID).requests = []) ∧
      (∀ url err,
        wfapiJobBuildURL joinPath c folderName jobName branchName (Sprint buildID) =
            .ok url →
        c.doRespWFAPIRaw "GET" url = .error err →
        (Stages joinPath c folderName jobName branchName buildID).value = [] ∧
          (Stages joinPath c folderName jobName branchName buildID).err = some err) ∧
      (∀ url resp,
        wfapiJobBuildURL joinPath c folderName jobName branchName (Sprint buildID) =
            .ok url →
        c.doRespWFAPIRaw "GET" url = .ok resp →
        (Stages joinPath c folderName jobName branchName buildID).value =
            respWFAPIRawToStages resp ∧
          (Stages joinPath c folderName jobName branchName buildID).err = none) := by
  refine ⟨?_, ?_, ?_⟩
  · intro err h
    unfold Stages
    rw [h]
    exact ⟨rfl, rfl, rfl⟩
  · intro url err h hdo
    unfold Stages
    rw [h]
    simp only [hdo, and_self]
  · intro url resp h hdo
    unfold Stages
    rw [h]
    simp only [hdo, and_self]

/-- C9, witness: a joiner that fails, a transport that fails, and both
succeeding. -/
theorem Stages_no_absorption_witness :
    ((Stages failingJoin sampleClient "infra" "api" "main" 42).value = [] ∧
        (Stages failingJoin sampleClient "infra" "api" "main" 42).err = some "parse error" ∧
        (Stages failingJoin sampleClient "infra" "api" "main" 42).requests = []) ∧
      ((Stages slashJoin failingClient "infra" "api" "main" 42).value = [] ∧
        (Stages slashJoin failingClient "infra" "api" "main" 42).err =
          some "connection refused") ∧
      ((Stages slashJoin sampleClient "infra" "api" "main" 42).value =
          respWFAPIRawToStages
            { Stages := [{ Name := "checkout", Status := "SUCCESS", DurationMillis := 250 },
                         { Name := "test", Status := "FAILED", DurationMillis := 61000 }] } ∧
        (Stages slashJoin sampleClient "infra" "api" "main" 42).err = none) :=
  ⟨(Stages_no_absorption failingJoin sampleClient "infra" "api" "main" 42).1
      "parse error" (by decide),
    (Stages_no_absorption slashJoin failingClient "infra" "api" "main" 42).2.1
      "https://ci.example.org/job/infra/job/api/job/main/42/wfapi" "connection refused"
      (by decide) rfl,
    (Stages_no_absorption slashJoin sampleClient "infra" "api" "main" 42).2.2
      "https://ci.example.org/job/infra/job/api/job/main/42/wfapi" _ (by decide) rfl⟩

/-! ## The records of the walk, level by level -/

theorem extractBuilds_eq_filterMap (flag : Bool) (path : List String)
    (bs : List buildRawResp) :
    extractBuilds flag path bs = bs.filterMap (fun rb => extractAt flag (path, rb)) := rfl

theorem levelRecords_succ_succ (flag : Bool) (k : Nat) (path : List String)
    (node : jobRawResp) :
    levelRecords flag (k + 2) path node =
      node.MultiBranchJobs.flatMap (levelRecords flag (k + 1) (path ++ [node.Name])) := rfl

theorem flatMap_nil_fun {α β : Type} (l : List α) :
    l.flatMap (fun _ => ([] : List β)) = [] := by
  induction l with
  | nil => rfl
  | cons x xs ih => simp [List.flatMap_cons, ih]

theorem children_recordsUpTo_perm (flag : Bool) (path : List String) (node : jobRawResp) :
    ∀ n : Nat,
      List.Perm
        (levelRecords flag 1 path node ++
          node.MultiBranchJobs.flatMap (recordsUpTo flag n (path ++ [node.Name])))
        (recordsUpTo flag (n + 1) path node) := by
  intro n
  induction n with
  | zero =>
    simp only [recordsUpTo, flatMap_nil_fun, List.append_nil, List.nil_append]
    exact List.Perm.refl _
  | succ n ih =>
    have hsplit : List.Perm
        (node.MultiBranchJobs.flatMap (recordsUpTo flag (n + 1) (path ++ [node.Name])))
        (node.MultiBranchJobs.flatMap (recordsUpTo flag n (path ++ [node.Name])) ++
          node.MultiBranchJobs.flatMap (levelRecords flag (n + 1) (path ++ [node.Name]))) := by
      have h := List.flatMap_append_perm node.MultiBranchJobs
        (recordsUpTo flag n (path ++ [node.Name]))
        (levelRecords flag (n + 1) (path ++ [node.Name]))
      exact h.symm
    have h1 := List.Perm.append_left (levelRecords flag 1 path node) hsplit
    rw [← List.append_assoc] at h1
    have h2 := List.Perm.append_right
      (node.MultiBranchJobs.flatMap (levelRecords flag (n + 1) (path ++ [node.Name]))) ih
    have h3 := h1.trans h2
    rw [← levelRecords_succ_succ] at h3
    exact h3

theorem walkFrom_perm_recordsUpTo (flag : Bool) :
    ∀ (n : Nat) (path : List String) (node : jobRawResp),
      List.Perm (walkFrom flag n path node) (recordsUpTo flag n path node) := by
  intro n
  induction n with
  | zero => intro path node; exact List.Perm.refl _
  | succ n ih =>
    intro path node
    have hkids : List.Perm
        (node.MultiBranchJobs.flatMap (walkFrom flag n (path ++ [node.Name])))
        (node.MultiBranchJobs.flatMap (recordsUpTo flag n (path ++ [node.Name]))) :=
      List.Perm.flatMap_left _ (fun kid _ => ih (path ++ [node.Name]) kid)
    have h1 := List.Perm.append_left
      (extractBuilds flag (path ++ [node.Name]) node.WorkflowJobBuilds) hkids
    exact h1.trans (children_recordsUpTo_perm flag path node n)

theorem levelRecords_eq_nodes (flag : Bool) :
    ∀ (k : Nat) (path : List String) (node : jobRawResp),
      levelRecords flag (k + 1) path node =
        (nodesAtLevel (k + 1) path node).flatMap
          (fun pn => extractBuilds flag pn.1 pn.2.WorkflowJobBuilds) := by
  intro k
  induction k with
  | zero => intro path node; simp [levelRecords, nodesAtLevel]
  | succ k ih =>
    intro path node
    rw [levelRecords_succ_succ]
    simp only [nodesAtLevel, List.flatMap_assoc]
    congr 1
    funext kid
    exact ih (path ++ [node.Name]) kid

theorem filterMap_flatMap_map {α β γ δ : Type} (l : List α) (g : α → List β)
    (h : α → β → γ) (f : γ → Option δ) :
    (l.flatMap (fun a => (g a).map (h a))).filterMap f =
      l.flatMap (fun a => (g a).filterMap (fun b => f (h a b))) := by
  induction l with
  | nil => rfl
  | cons x xs ih =>
    simp only [List.flatMap_cons, List.filterMap_append, ih, List.filterMap_map]
    rfl

theorem levelRecords_jobs_eq (flag : Bool) (k : Nat) (raw : respRaw) :
    raw.Jobs.flatMap (levelRecords flag (k + 1) []) =
      (buildsAtLevel (k + 1) raw).filterMap (extractAt flag) := by
  unfold buildsAtLevel
  rw [filterMap_flatMap_map, List.flatMap_assoc]
  congr 1
  funext job
  rw [levelRecords_eq_nodes]
  rfl

theorem respRawToBuilds_perm_levels (raw : respRaw) (flag : Bool) :
    List.Perm (respRawToBuilds raw flag)
      ((buildsAtLevel 1 raw).filterMap (extractAt flag) ++
        (buildsAtLevel 2 raw).filterMap (extractAt flag) ++
        (buildsAtLevel 3 raw).filterMap (extractAt flag) ++
        (buildsAtLevel 4 raw).filterMap (extractAt flag)) := by
  rw [respRawToBuilds_eq_walk]
  have h0 : List.Perm (raw.Jobs.flatMap (walkFrom flag 4 []))
      (raw.Jobs.flatMap (recordsUpTo flag 4 [])) :=
    List.Perm.flatMap_left _ (fun job _ => walkFrom_perm_recordsUpTo flag 4 [] job)
  refine h0.trans ?_
  rw [← levelRecords_jobs_eq, ← levelRecords_jobs_eq, ← levelRecords_jobs_eq,
    ← levelRecords_jobs_eq]
  have e : recordsUpTo flag 4 [] = fun job =>
      ((levelRecords flag 1 [] job ++ levelRecords flag 2 [] job) ++
        levelRecords flag 3 [] job) ++ levelRecords flag 4 [] job := by
    funext job
    simp [recordsUpTo]
  rw [e]
  have s1 := (List.flatMap_append_perm raw.Jobs
    (fun job => (levelRecords flag 1 [] job ++ levelRecords flag 2 [] job) ++
      levelRecords flag 3 [] job) (levelRecords flag 4 [])).symm
  have s2 := (List.flatMap_append_perm raw.Jobs
    (fun job => levelRecords flag 1 [] job ++ levelRecords flag 2 [] job)
    (levelRecords flag 3 [])).symm
  have s3 := (List.flatMap_append_perm raw.Jobs
    (levelRecords flag 1 []) (levelRecords flag 2 [])).symm
  exact s1.trans
    (List.Perm.append_right _ (s2.trans (List.Perm.append_right _ s3)))

theorem length_filterMap_extractAt (flag : Bool) (l : List (List String × buildRawResp)) :
    (l.filterMap (extractAt flag)).length = l.countP (isExtracted flag) := by
  induction l with
  | nil => rfl
  | cons x xs ih =>
    rw [List.filterMap_cons, List.countP_cons]
    have hx : isExtracted flag x = (extractAt flag x).isSome := rfl
    cases h : extractAt flag x with
    | none => simp [ih, hx, h]
    | some r => simp [ih, hx, h]

theorem nodesAtLevel_path_length :
    ∀ (k : Nat) (path : List String) (node : jobRawResp) (pn : List String × jobRawResp),
      pn ∈ nodesAtLevel (k + 1) path node → pn.1.length = path.length + (k + 1) := by
  intro k
  induction k with
  | zero =>
    intro path node pn h
    simp only [nodesAtLevel, List.mem_singleton] at h
    rw [h, List.length_append, List.length_singleton]
  | succ k ih =>
    intro path node pn h
    simp only [nodesAtLevel, List.mem_flatMap] at h
    obtain ⟨kid, _, hk⟩ := h
    have := ih (path ++ [node.Name]) kid pn hk
    rw [this, List.length_append, List.length_singleton]
    omega

theorem buildsAtLevel_path_length {k : Nat} {raw : respRaw} {p : List String}
    {rb : buildRawResp} (h : (p, rb) ∈ buildsAtLevel k raw) : p.length = k := by
  cases k with
  | zero =>
    unfold buildsAtLevel at h
    have e : raw.Jobs.flatMap (nodesAtLevel 0 []) = [] := flatMap_nil_fun raw.Jobs
    rw [e] at h
    exact absurd h (List.not_mem_nil _)
  | succ k =>
    simp only [buildsAtLevel, List.mem_flatMap, List.mem_map] at h
    obtain ⟨pn, ⟨job, _, hpn⟩, rb', _, heq⟩ := h
    have := nodesAtLevel_path_length k [] job pn hpn
    cases heq
    simpa using this

theorem buildRawToBuild_ok_path {f j b s : String} {rb : buildRawResp} {r : Build}
    (h : buildRawToBuild f j b s rb = .ok r) :
    r.FolderName = f ∧ r.JobName = j ∧ r.BranchName = b ∧ r.SubBranchName = s := by
  rw [buildRawToBuild_eq] at h
  cases hfind : rb.Actions.find? (fun a => a.Class == metricClass) with
  | none => rw [hfind] at h; cases h
  | some a =>
    rw [hfind] at h
    cases hat : Atoi rb.ID with
    | none => rw [hat] at h; cases h
    | some n => rw [hat] at h; cases h; exact ⟨rfl, rfl, rfl, rfl⟩

theorem extractAt_eq_some {flag : Bool} {pb : List String × buildRawResp} {r : Build}
    (h : extractAt flag pb = some r) :
    (flag && buildIsInProgress pb.2) = false ∧
      buildRawToBuild (pb.1.getD 0 "") (pb.1.getD 1 "") (pb.1.getD 2 "") (pb.1.getD 3 "")
        pb.2 = .ok r := by
  unfold extractAt at h
  cases hc : (flag && buildIsInProgress pb.2) with
  | true => rw [hc] at h; simp at h
  | false =>
    rw [hc] at h
    cases hb : buildRawToBuild (pb.1.getD 0 "") (pb.1.getD 1 "") (pb.1.getD 2 "")
        (pb.1.getD 3 "") pb.2 with
    | error e => rw [hb] at h; simp at h
    | ok r' =>
      rw [hb] at h
      simp at h
      rw [h]
      exact ⟨rfl, rfl⟩

theorem padded_path {k : Nat} {p : List String} (hlen : p.length = k) (h1 : 1 ≤ k)
    (h4 : k ≤ 4) :
    [p.getD 0 "", p.getD 1 "", p.getD 2 "", p.getD 3 ""] = p ++ List.replicate (4 - k) "" := by
  subst hlen
  match p, h1, h4 with
  | [a], _, _ => rfl
  | [a, b], _, _ => rfl
  | [a, b, c], _, _ => rfl
  | [a, b, c, d], _, _ => rfl
  | [], h, _ => simp at h
  | _ :: _ :: _ :: _ :: _ :: _, _, h => simp at h

/-! ## Length and path fields of the flattened sequence (C10) -/

theorem record_of_level {flag : Bool} {raw : respRaw} {k : Nat} {r : Build} (h1 : 1 ≤ k)
    (h4 : k ≤ 4) (h : r ∈ (buildsAtLevel k raw).filterMap (extractAt flag)) :
    ∃ (p : List String) (rb : buildRawResp),
      (p, rb) ∈ buildsAtLevel k raw ∧ p.length = k ∧ isExtracted flag (p, rb) = true ∧
        buildRawToBuild (p.getD 0 "") (p.getD 1 "") (p.getD 2 "") (p.getD 3 "") rb = .ok r ∧
        [r.FolderName, r.JobName, r.BranchName, r.SubBranchName] =
          p ++ List.replicate (4 - k) "" := by
  rw [List.mem_filterMap] at h
  obtain ⟨⟨p, rb⟩, hmem, hex⟩ := h
  have hlen := buildsAtLevel_path_length hmem
  have hb := (extractAt_eq_some hex).2
  have hp := buildRawToBuild_ok_path hb
  refine ⟨p, rb, hmem, hlen, ?_, hb, ?_⟩
  · unfold isExtracted
    rw [hex]
    rfl
  · rw [← padded_path hlen h1 h4, hp.1, hp.2.1, hp.2.2.1, hp.2.2.2]

/-- C10: the sequence `respRawToBuilds` returns has as many records as there
are extracted build nodes (not skipped as in progress, `buildRawToBuild`
succeeding) at levels 1, 2, 3 and 4 together. Every record is the one
`buildRawToBuild` returns for a build node of some level `k` from 1 to 4,
called with the `k` names of the nodes from the top-level job down to the node
holding the build; its four path fields are these `k` names followed by
`4 - k` empty strings. Conversely every extracted build node of a level from 1
to 4 has such a record in the sequence. -/
theorem respRawToBuilds_length_and_paths (raw : respRaw) (flag : Bool) :
    (respRawToBuilds raw flag).length =
        (buildsAtLevel 1 raw).countP (isExtracted flag) +
          (buildsAtLevel 2 raw).countP (isExtracted flag) +
          (buildsAtLevel 3 raw).countP (isExtracted flag) +
          (buildsAtLevel 4 raw).countP (isExtracted flag) ∧
      (∀ r ∈ respRawToBuilds raw flag,
        ∃ (k : Nat) (p : List String) (rb : buildRawResp),
          1 ≤ k ∧ k ≤ 4 ∧ (p, rb) ∈ buildsAtLevel k raw ∧ p.length = k ∧
            isExtracted flag (p, rb) = true ∧
            buildRawToBuild (p.getD 0 "") (p.getD 1 "") (p.getD 2 "") (p.getD 3 "") rb =
              .ok r ∧
            [r.FolderName, r.JobName, r.BranchName, r.SubBranchName] =
              p ++ List.replicate (4 - k) "") ∧
      (∀ (k : Nat) (p : List String) (rb : buildRawResp), 1 ≤ k → k ≤ 4 →
        (p, rb) ∈ buildsAtLevel k raw → isExtracted flag (p, rb) = true →
        ∃ r ∈ respRawToBuilds raw flag,
          buildRawToBuild (p.getD 0 "") (p.getD 1 "") (p.getD 2 "") (p.getD 3 "") rb =
              .ok r ∧
            [r.FolderName, r.JobName, r.BranchName, r.SubBranchName] =
              p ++ List.replicate (4 - k) "") := by
  have hperm := respRawToBuilds_perm_levels raw flag
  refine ⟨?_, ?_, ?_⟩
  · rw [hperm.length_eq]
    simp only [List.length_append, length_filterMap_extractAt]
  · intro r hr
    rw [hperm.mem_iff] at hr
    simp only [List.mem_append] at hr
    rcases hr with ((h | h) | h) | h
    · obtain ⟨p, rb, h⟩ := record_of_level (by decide) (by decide) h
      exact ⟨1, p, rb, by decide, by decide, h⟩
    · obtain ⟨p, rb, h⟩ := record_of_level (by decide) (by decide) h
      exact ⟨2, p, rb, by decide, by decide, h⟩
    · obtain ⟨p, rb, h⟩ := record_of_level (by decide) (by decide) h
      exact ⟨3, p, rb, by decide, by decide, h⟩
    · obtain ⟨p, rb, h⟩ := record_of_level (by decide) (by decide) h
      exact ⟨4, p, rb, by decide, by decide, h⟩
  · intro k p rb h1 h4 hmem hex
    unfold isExtracted at hex
    obtain ⟨r, hr⟩ := Option.isSome_iff_exists.mp hex
    have hin : r ∈ (buildsAtLevel k raw).filterMap (extractAt flag) :=
      List.mem_filterMap.mpr ⟨(p, rb), hmem, hr⟩
    have hb := (extractAt_eq_some hr).2
    have hp := buildRawToBuild_ok_path hb
    have hlen := buildsAtLevel_path_length hmem
    refine ⟨r, ?_, hb, ?_⟩
    · rw [hperm.mem_iff]
      simp only [List.mem_append]
      have hk : k = 1 ∨ k = 2 ∨ k = 3 ∨ k = 4 := by omega
      rcases hk with hk | hk | hk | hk <;> subst hk
      · exact Or.inl (Or.inl (Or.inl hin))
      · exact Or.inl (Or.inl (Or.inr hin))
      · exact Or.inl (Or.inr hin)
      · exact Or.inr hin
    · rw [← padded_path hlen h1 h4, hp.1, hp.2.1, hp.2.2.1, hp.2.2.2]

/-- C10, witness: `sampleTree` has one extracted build at each level; the
record of the build of its level-3 node `main` is in the sequence with the path
`infra, api, main` and an empty `SubBranchName`; and the record with the path
`infra, api` comes from a build node of some level. -/
theorem respRawToBuilds_length_and_paths_witness :
    (respRawToBuilds sampleTree false).length = 1 + 1 + 1 + 1 ∧
      (∃ r ∈ respRawToBuilds sampleTree false,
        buildRawToBuild "infra" "api" "main" "" sampleBuild = .ok r ∧
          [r.FolderName, r.JobName, r.BranchName, r.SubBranchName] =
            ["infra", "api", "main", ""]) ∧
      ∃ (k : Nat) (p : List String) (rb : buildRawResp),
        1 ≤ k ∧ k ≤ 4 ∧ (p, rb) ∈ buildsAtLevel k sampleTree ∧ p.length = k ∧
          isExtracted false (p, rb) = true ∧
          buildRawToBuild (p.getD 0 "") (p.getD 1 "") (p.getD 2 "") (p.getD 3 "") rb =
            .ok { FolderName := "infra", JobName := "api", BranchName := "",
                  SubBranchName := "", ID := 42, BuildableTime := 0,
                  WaitingTime := 1500000000, BlockedTime := 0, ExecutingTime := 9000000000,
                  BuildingDuration := 0, Result := "SUCCESS" } ∧
          ["infra", "api", "", ""] = p ++ List.replicate (4 - k) "" :=
  ⟨(respRawToBuilds_length_and_paths sampleTree false).1.trans (by decide),
    (respRawToBuilds_length_and_paths sampleTree false).2.2 3 ["infra", "api", "main"]
      sampleBuild (by decide) (by decide) (by decide) (by decide),
    (respRawToBuilds_length_and_paths sampleTree false).2.1
      { FolderName := "infra", JobName := "api", BranchName := "", SubBranchName := "",
        ID := 42, BuildableTime := 0, WaitingTime := 1500000000, BlockedTime := 0,
        ExecutingTime := 9000000000, BuildingDuration := 0, Result := "SUCCESS" }
      (by decide)⟩

/-! ## Responses without null entries: the pointer-level transformations agree -/

theorem foldlM_map_some {α β σ : Type} (e : α → β) (F : σ → β → Option σ) (G : σ → α → σ)
    (h : ∀ st x, F st (e x) = some (G st x)) :
    ∀ (xs : List α) (st : σ), (xs.map e).foldlM F st = some (xs.foldl G st) := by
  intro xs
  induction xs with
  | nil => intro st; rfl
  | cons x xs ih =>
    intro st
    rw [List.map_cons, List.foldlM_cons, h]
    exact ih (G st x)

theorem toPtrJobs_eq (ks : List jobRawResp) :
    toPtrJobs ks = ks.map (fun k => some (toPtrJob k)) := by
  induction ks with
  | nil => rfl
  | cons k ks ih => simp [toPtrJobs, ih]

theorem toPtrJob_Name (job : jobRawResp) : (toPtrJob job).Name = job.Name := by
  cases job; rfl

theorem toPtrJob_builds (job : jobRawResp) :
    (toPtrJob job).WorkflowJobBuilds =
      job.WorkflowJobBuilds.map (fun b => some (toPtrBuild b)) := by
  cases job; rfl

theorem toPtrJob_children (job : jobRawResp) :
    (toPtrJob job).MultiBranchJobs =
      job.MultiBranchJobs.map (fun k => some (toPtrJob k)) := by
  cases job with
  | mk n B K => exact toPtrJobs_eq K

theorem ptr_loop_toPtr (f j b s : String) (rb : buildRawResp) (as : List actionRawResp) :
    Ptr.buildRawToBuild.loop f j b s (toPtrBuild rb) (as.map some) =
      some (buildRawToBuild.loop f j b s rb as) := by
  induction as with
  | nil => rfl
  | cons a rest ih =>
    rw [List.map_cons]
    unfold Ptr.buildRawToBuild.loop buildRawToBuild.loop
    by_cases h : a.Class = metricClass
    · simp only [h, ne_eq, not_true_eq_false, if_false, toPtrBuild]
      cases Atoi rb.ID <;> rfl
    · simp only [h, ne_eq, not_false_eq_true, if_true]
      exact ih

theorem ptr_buildRawToBuild_toPtr (f j b s : String) (rb : buildRawResp) :
    Ptr.buildRawToBuild f j b s (some (toPtrBuild rb)) = some (buildRawToBuild f j b s rb) :=
  ptr_loop_toPtr f j b s rb rb.Actions

theorem ptr_buildLoop_toPtr (flag : Bool) (f j b s : String)
    (msg : String → GoError → String) (bs : List buildRawResp) (st : WalkState) :
    (bs.map (fun b => some (toPtrBuild b))).foldlM (fun st rawBuild =>
        match rawBuild with
        | none => none
        | some rb =>
          if flag && (rb.Result == "") then some st
          else
            match Ptr.buildRawToBuild f j b s (some rb) with
            | none => none
            | some (.error err) => some { st with log := st.log ++ [msg rb.ID err] }
            | some (.ok b) => some { st with res := st.res ++ [b] }) st =
      some (bs.foldl (fun st rawBuild =>
        if flag && buildIsInProgress rawBuild then st
        else
          match buildRawToBuild f j b s rawBuild with
          | .error err => { st with log := st.log ++ [msg rawBuild.ID err] }
          | .ok b => { st with res := st.res ++ [b] }) st) := by
  apply foldlM_map_some
  intro st x
  simp only [ptr_buildRawToBuild_toPtr]
  have hr : (toPtrBuild x).Result = x.Result := rfl
  have hi : (toPtrBuild x).ID = x.ID := rfl
  rw [hr, hi]
  by_cases hc : (flag && (x.Result == "")) = true
  · simp only [buildIsInProgress, hc, if_true]
  · simp only [buildIsInProgress, hc, if_false]
    cases buildRawToBuild f j b s x <;> rfl

/-- On a response without null entries the walk over pointers does not panic
and is the walk over the records. -/
theorem ptr_respRawToBuildsRun_toPtr (raw : respRaw) (flag : Bool) :
    Ptr.respRawToBuildsRun (toPtrResp raw) flag = some (respRawToBuildsRun raw flag) := by
  unfold Ptr.respRawToBuildsRun respRawToBuildsRun toPtrResp
  simp only [toPtrJobs_eq]
  apply foldlM_map_some
  intro st job
  simp only [toPtrJob_Name, toPtrJob_builds, toPtrJob_children]
  rw [ptr_buildLoop_toPtr flag job.Name "" "" ""
    (fun id err => "skipping build " ++ job.Name ++ "/" ++ id ++ ": " ++ err)]
  simp only []
  apply foldlM_map_some
  intro st j2
  simp only [toPtrJob_Name, toPtrJob_builds, toPtrJob_children]
  rw [ptr_buildLoop_toPtr flag job.Name j2.Name "" ""
    (fun id err => "skipping build " ++ job.Name ++ "/" ++ j2.Name ++ "/" ++ id ++ ": " ++ err)]
  simp only []
  apply foldlM_map_some
  intro st j3
  simp only [toPtrJob_Name, toPtrJob_builds, toPtrJob_children]
  rw [ptr_buildLoop_toPtr flag job.Name j2.Name j3.Name ""
    (fun id err => "skipping build " ++ job.Name ++ "/" ++ j2.Name ++ "/" ++ j3.Name ++ "/" ++
      id ++ ": " ++ err)]
  simp only []
  apply foldlM_map_some
  intro st j4
  simp only [toPtrJob_Name, toPtrJob_builds]
  rw [ptr_buildLoop_toPtr flag job.Name j2.Name j3.Name j4.Name
    (fun id err => "skipping build " ++ job.Name ++ "/" ++ j2.Name ++ "/" ++ j3.Name ++ "/" ++
      j4.Name ++ "/" ++ id ++ ": " ++ err)]

theorem ptr_stages_loop_toPtr (stages : List respWFAPIStageRaw) :
    ∀ (i : Nat) (res : List (Option Stage)),
      Ptr.respWFAPIRawToStages.loop (stages.map some) i res =
        some (respWFAPIRawToStages.loop stages i res) := by
  induction stages with
  | nil => intro i res; rfl
  | cons stage rest ih =>
    intro i res
    rw [List.map_cons]
    unfold Ptr.respWFAPIRawToStages.loop respWFAPIRawToStages.loop
    exact ih (i + 1) _

/-- On a workflow response without null entries the stage loop over pointers
does not panic and is the loop over the records. -/
theorem ptr_respWFAPIRawToStages_toPtr (resp : respWFAPIRaw) :
    Ptr.respWFAPIRawToStages (toPtrWFAPI resp) = some (respWFAPIRawToStages resp) := by
  unfold Ptr.respWFAPIRawToStages respWFAPIRawToStages toPtrWFAPI
  simp only [List.length_map]
  exact ptr_stages_loop_toPtr resp.Stages 0 _

/-! ## The loops as a recursive traversal (C11) -/

theorem walkChildren_eq_flatMap (flag : Bool) (path : List String) (depth : Nat) :
    ∀ children : List jobRawResp,
      walkChildren flag children path depth =
        children.flatMap (fun child => walk flag child (path ++ [child.Name]) depth) := by
  intro children
  induction children with
  | nil => simp [walkChildren]
  | cons child rest ih => simp [walkChildren, ih]

theorem walk_eq (flag : Bool) (node : jobRawResp) (path : List String) (depth : Nat) :
    walk flag node path depth =
      extractBuilds flag path node.WorkflowJobBuilds ++
        (if depth < 4 then
          node.MultiBranchJobs.flatMap
            (fun child => walk flag child (path ++ [child.Name]) (depth + 1))
         else []) := by
  cases node with
  | mk n B K =>
    rw [walk, walkChildren_eq_flatMap]
    rfl

theorem walk_eq_walkFrom (flag : Bool) :
    ∀ (levels : Nat) (path : List String) (node : jobRawResp), levels ≤ 3 →
      walk flag node (path ++ [node.Name]) (4 - levels) =
        walkFrom flag (levels + 1) path node := by
  intro levels
  induction levels with
  | zero =>
    intro path node _
    rw [walk_eq]
    simp [walkFrom, flatMap_nil_fun]
  | succ l ih =>
    intro path node hl
    rw [walk_eq]
    have hlt : 4 - (l + 1) < 4 := by omega
    have hd : 4 - (l + 1) + 1 = 4 - l := by omega
    rw [if_pos hlt, hd]
    show _ = extractBuilds flag (path ++ [node.Name]) node.WorkflowJobBuilds ++
      node.MultiBranchJobs.flatMap (walkFrom flag (l + 1) (path ++ [node.Name]))
    congr 1
    congr 1
    funext child
    exact ih (path ++ [node.Name]) child (by omega)

/-- C11: the four nested loops of `respRawToBuilds` are the recursive
depth-first traversal capped at depth 4: the returned sequence is the
concatenation, over the top-level jobs in their order, of `walk` started at
the job with the path holding its name and depth 1. -/
theorem respRawToBuilds_eq_recursive_walk (raw : respRaw) (flag : Bool) :
    respRawToBuilds raw flag =
      raw.Jobs.flatMap (fun job => walk flag job [job.Name] 1) := by
  rw [respRawToBuilds_eq_walk]
  congr 1
  funext job
  exact (walk_eq_walkFrom flag 3 [] job (Nat.le_refl 3)).symm

/-! ## Levels below the fourth are not visited (C12) -/

theorem truncateJob_Name (l : Nat) (node : jobRawResp) :
    (truncateJob l node).Name = node.Name := by
  cases l <;> rfl

theorem truncateJob_builds (l : Nat) (node : jobRawResp) :
    (truncateJob l node).WorkflowJobBuilds = node.WorkflowJobBuilds := by
  cases l <;> rfl

theorem walkFrom_truncateJob (flag : Bool) :
    ∀ (l : Nat) (path : List String) (node : jobRawResp),
      walkFrom flag (l + 1) path (truncateJob l node) = walkFrom flag (l + 1) path node := by
  intro l
  induction l with
  | zero =>
    intro path node
    simp [walkFrom, truncateJob_Name, truncateJob_builds, flatMap_nil_fun]
  | succ l ih =>
    intro path node
    rw [walkFrom, walkFrom, truncateJob_Name, truncateJob_builds]
    congr 1
    show ((node.MultiBranchJobs.map (truncateJob l)).flatMap
      (walkFrom flag (l + 1) (path ++ [node.Name]))) = _
    rw [List.flatMap_map]
    congr 1
    funext child
    exact ih (path ++ [node.Name]) child

theorem respRawToBuilds_firstFourLevels (raw : respRaw) (flag : Bool) :
    respRawToBuilds (firstFourLevels raw) flag = respRawToBuilds raw flag := by
  rw [respRawToBuilds_eq_walk, respRawToBuilds_eq_walk]
  show (raw.Jobs.map (truncateJob 3)).flatMap (walkFrom flag 4 []) = _
  rw [List.flatMap_map]
  congr 1
  funext job
  exact walkFrom_truncateJob flag 3 [] job

theorem extracted_build_mem {raw : respRaw} {flag : Bool} {k : Nat} {p : List String}
    {rb : buildRawResp} (h1 : 1 ≤ k) (h4 : k ≤ 4) (hmem : (p, rb) ∈ buildsAtLevel k raw)
    (hex : isExtracted flag (p, rb) = true) :
    ∃ r ∈ respRawToBuilds raw flag,
      buildRawToBuild (p.getD 0 "") (p.getD 1 "") (p.getD 2 "") (p.getD 3 "") rb = .ok r := by
  unfold isExtracted at hex
  obtain ⟨r, hr⟩ := Option.isSome_iff_exists.mp hex
  have hin : r ∈ (buildsAtLevel k raw).filterMap (extractAt flag) :=
    List.mem_filterMap.mpr ⟨(p, rb), hmem, hr⟩
  refine ⟨r, ?_, (extractAt_eq_some hr).2⟩
  rw [(respRawToBuilds_perm_levels raw flag).mem_iff]
  simp only [List.mem_append]
  have hk : k = 1 ∨ k = 2 ∨ k = 3 ∨ k = 4 := by omega
  rcases hk with hk | hk | hk | hk <;> subst hk
  · exact Or.inl (Or.inl (Or.inl hin))
  · exact Or.inl (Or.inl (Or.inr hin))
  · exact Or.inl (Or.inr hin)
  · exact Or.inr hin

/-- C12: two responses that are identical on levels 1 to 4 yield the same
sequence, whatever hangs below their level-4 nodes; and a build node of a
level from 1 to 4 that is not skipped as in progress and on which
`buildRawToBuild` succeeds has its record in the sequence. -/
theorem deeper_levels_not_visited (raw raw' : respRaw) (flag : Bool)
    (hsame : firstFourLevels raw = firstFourLevels raw') :
    respRawToBuilds raw flag = respRawToBuilds raw' flag ∧
      ∀ (k : Nat) (p : List String) (rb : buildRawResp), 1 ≤ k → k ≤ 4 →
        (p, rb) ∈ buildsAtLevel k raw → isExtracted flag (p, rb) = true →
        ∃ r ∈ respRawToBuilds raw flag,
          buildRawToBuild (p.getD 0 "") (p.getD 1 "") (p.getD 2 "") (p.getD 3 "") rb =
            .ok r := by
  refine ⟨?_, fun k p rb h1 h4 hmem hex => extracted_build_mem h1 h4 hmem hex⟩
  rw [← respRawToBuilds_firstFourLevels raw, ← respRawToBuilds_firstFourLevels raw', hsame]

/-- C12, witness: `deepTree` is `sampleTree` with a fifth level; both yield the
same records, and the build of the level-4 node `hotfix` is among them. -/
theorem deeper_levels_not_visited_witness :
    respRawToBuilds deepTree false = respRawToBuilds sampleTree false ∧
      ∃ r ∈ respRawToBuilds deepTree false,
        buildRawToBuild "infra" "api" "main" "hotfix" sampleBuild = .ok r :=
  have h := deeper_levels_not_visited deepTree sampleTree false rfl
  ⟨h.1, h.2 4 ["infra", "api", "main", "hotfix"] sampleBuild (by decide) (by decide)
    (by decide) (by decide)⟩

/-! ## Records come from timing-metrics actions (C13) -/

theorem buildRawToBuild_ok_inv {f j b s : String} {rb : buildRawResp} {r : Build}
    (h : buildRawToBuild f j b s rb = .ok r) :
    ∃ (a : actionRawResp) (intID : Int),
      rb.Actions.find? (fun a => a.Class == metricClass) = some a ∧
        Atoi rb.ID = some intID ∧
        r = { FolderName := f, JobName := j, BranchName := b, SubBranchName := s,
              ID := intID,
              BuildableTime := mulInt64 a.BuildableTimeMillis Millisecond,
              WaitingTime := mulInt64 a.WaitingTimeMillis Millisecond,
              BlockedTime := mulInt64 a.BlockedTimeMillis Millisecond,
              ExecutingTime := mulInt64 a.ExecutingTimeMillis Millisecond,
              BuildingDuration := mulInt64 a.BuildingDurationMillis Millisecond,
              Result := rb.Result } := by
  rw [buildRawToBuild_eq] at h
  cases hfind : rb.Actions.find? (fun a => a.Class == metricClass) with
  | none => rw [hfind] at h; cases h
  | some a =>
    rw [hfind] at h
    cases hat : Atoi rb.ID with
    | none => rw [hat] at h; cases h
    | some n =>
      rw [hat] at h
      cases h
      exact ⟨a, n, rfl, rfl, rfl⟩

theorem find?_metric_some {as : List actionRawResp} {a : actionRawResp}
    (h : as.find? (fun a => a.Class == metricClass) = some a) :
    a ∈ as ∧ a.Class = metricClass := by
  refine ⟨List.mem_of_find?_eq_some h, ?_⟩
  have := List.find?_some h
  simpa using this

theorem record_level_of_mem {raw : respRaw} {flag : Bool} {r : Build}
    (hr : r ∈ respRawToBuilds raw flag) :
    ∃ (k : Nat) (p : List String) (rb : buildRawResp),
      1 ≤ k ∧ k ≤ 4 ∧ (p, rb) ∈ buildsAtLevel k raw ∧ p.length = k ∧
        isExtracted flag (p, rb) = true ∧
        buildRawToBuild (p.getD 0 "") (p.getD 1 "") (p.getD 2 "") (p.getD 3 "") rb = .ok r := by
  rw [(respRawToBuilds_perm_levels raw flag).mem_iff] at hr
  simp only [List.mem_append] at hr
  rcases hr with ((h | h) | h) | h
  · obtain ⟨p, rb, h1, h2, h3, h4, _⟩ := record_of_level (by decide) (by decide) h
    exact ⟨1, p, rb, by decide, by decide, h1, h2, h3, h4⟩
  · obtain ⟨p, rb, h1, h2, h3, h4, _⟩ := record_of_level (by decide) (by decide) h
    exact ⟨2, p, rb, by decide, by decide, h1, h2, h3, h4⟩
  · obtain ⟨p, rb, h1, h2, h3, h4, _⟩ := record_of_level (by decide) (by decide) h
    exact ⟨3, p, rb, by decide, by decide, h1, h2, h3, h4⟩
  · obtain ⟨p, rb, h1, h2, h3, h4, _⟩ := record_of_level (by decide) (by decide) h
    exact ⟨4, p, rb, by decide, by decide, h1, h2, h3, h4⟩

/-- C13: every record of the sequence `respRawToBuilds` returns comes from a
build node of a level from 1 to 4 that has an action of class `metricClass`;
the record's `Result` is the node's result and its five durations are the
converted millisecond fields of that action. A build node without such an
action yields no record at all, whatever the path names. -/
theorem records_only_from_metrics_actions (raw : respRaw) (flag : Bool) :
    (∀ r ∈ respRawToBuilds raw flag,
      ∃ (k : Nat) (p : List String) (rb : buildRawResp) (a : actionRawResp),
        1 ≤ k ∧ k ≤ 4 ∧ (p, rb) ∈ buildsAtLevel k raw ∧
          a ∈ rb.Actions ∧ a.Class = metricClass ∧ r.Result = rb.Result ∧
          r.BuildableTime = mulInt64 a.BuildableTimeMillis Millisecond ∧
          r.WaitingTime = mulInt64 a.WaitingTimeMillis Millisecond ∧
          r.BlockedTime = mulInt64 a.BlockedTimeMillis Millisecond ∧
          r.ExecutingTime = mulInt64 a.ExecutingTimeMillis Millisecond ∧
          r.BuildingDuration = mulInt64 a.BuildingDurationMillis Millisecond) ∧
      (∀ (f j b s : String) (rb : buildRawResp),
        (∀ a ∈ rb.Actions, a.Class ≠ metricClass) →
          ∀ r : Build, buildRawToBuild f j b s rb ≠ .ok r) := by
  constructor
  · intro r hr
    obtain ⟨k, p, rb, h1, h4, hmem, _, _, hb⟩ := record_level_of_mem hr
    obtain ⟨a, n, hfind, _, hrec⟩ := buildRawToBuild_ok_inv hb
    obtain ⟨ha, hc⟩ := find?_metric_some hfind
    refine ⟨k, p, rb, a, h1, h4, hmem, ha, hc, ?_⟩
    rw [hrec]
    exact ⟨rfl, rfl, rfl, rfl, rfl, rfl⟩
  · intro f j b s rb hall r hr
    rw [buildRawToBuild_eq, find?_metric_eq_none hall] at hr
    cases hr

/-- C13, witness: the level-2 record of `sampleTree` comes from a build node
with an action of class `metricClass`, and `buildWithoutMetrics` does not yield
the record that has all durations zero. -/
theorem records_only_from_metrics_actions_witness :
    (∃ (k : Nat) (p : List String) (rb : buildRawResp) (a : actionRawResp),
        1 ≤ k ∧ k ≤ 4 ∧ (p, rb) ∈ buildsAtLevel k sampleTree ∧
          a ∈ rb.Actions ∧ a.Class = metricClass ∧ "SUCCESS" = rb.Result ∧
          (0 : Int) = mulInt64 a.BuildableTimeMillis Millisecond ∧
          (1500000000 : Int) = mulInt64 a.WaitingTimeMillis Millisecond ∧
          (0 : Int) = mulInt64 a.BlockedTimeMillis Millisecond ∧
          (9000000000 : Int) = mulInt64 a.ExecutingTimeMillis Millisecond ∧
          (0 : Int) = mulInt64 a.BuildingDurationMillis Millisecond) ∧
      buildRawToBuild "infra" "" "" "" buildWithoutMetrics ≠
        .ok { FolderName := "infra", JobName := "", BranchName := "", SubBranchName := "",
              ID := 7, BuildableTime := 0, WaitingTime := 0, BlockedTime := 0,
              ExecutingTime := 0, BuildingDuration := 0, Result := "FAILURE" } :=
  ⟨(records_only_from_metrics_actions sampleTree false).1
      { FolderName := "infra", JobName := "api", BranchName := "", SubBranchName := "",
        ID := 42, BuildableTime := 0, WaitingTime := 1500000000, BlockedTime := 0,
        ExecutingTime := 9000000000, BuildingDuration := 0, Result := "SUCCESS" }
      (by decide),
    (records_only_from_metrics_actions sampleTree false).2 "infra" "" "" ""
      buildWithoutMetrics (by decide) _⟩

/-! ## The ID of a record (C14) -/

theorem Atoi_inInt64 {s : String} {n : Int} (h : Atoi s = some n) : inInt64 n := by
  unfold Atoi at h
  unfold inInt64
  cases hs : s.data with
  | nil => rw [hs] at h; cases h
  | cons ch rest =>
    rw [hs] at h
    simp only at h
    by_cases hm : ch = '-'
    · rw [if_pos hm] at h
      cases hp : parseMagnitude rest with
      | none => rw [hp] at h; cases h
      | some m =>
        rw [hp] at h
        simp only at h
        by_cases hle : m ≤ 2 ^ 63
        · rw [if_pos hle] at h
          cases h
          constructor <;> omega
        · rw [if_neg hle] at h; cases h
    · rw [if_neg hm] at h
      by_cases hpl : ch = '+'
      · rw [if_pos hpl] at h
        cases hp : parseMagnitude rest with
        | none => rw [hp] at h; cases h
        | some m =>
          rw [hp] at h
          simp only at h
          by_cases hlt : m < 2 ^ 63
          · rw [if_pos hlt] at h
            cases h
            constructor <;> omega
          · rw [if_neg hlt] at h; cases h
      · rw [if_neg hpl] at h
        cases hp : parseMagnitude (ch :: rest) with
        | none => rw [hp] at h; cases h
        | some m =>
          rw [hp] at h
          simp only at h
          by_cases hlt : m < 2 ^ 63
          · rw [if_pos hlt] at h
            cases h
            constructor <;> omega
          · rw [if_neg hlt] at h; cases h

/-- C14, counterexample: the id string `-5` does not denote a non-negative
integer, yet `buildRawToBuild` returns a record for it, with `ID = -5`, and
`respRawToBuilds` returns that record. -/
theorem negative_id_yields_build :
    buildRawToBuild "infra" "" "" "" buildWithNegativeID =
        .ok { FolderName := "infra", JobName := "", BranchName := "", SubBranchName := "",
              ID := -5, BuildableTime := 0, WaitingTime := 1500000000, BlockedTime := 0,
              ExecutingTime := 9000000000, BuildingDuration := 0, Result := "SUCCESS" } ∧
      respRawToBuilds { Jobs := [.mk "infra" [buildWithNegativeID] []] } true =
        [{ FolderName := "infra", JobName := "", BranchName := "", SubBranchName := "",
           ID := -5, BuildableTime := 0, WaitingTime := 1500000000, BlockedTime := 0,
           ExecutingTime := 9000000000, BuildingDuration := 0, Result := "SUCCESS" }] ∧
      ¬ (0 ≤ (-5 : Int)) := by
  decide

/-- C14, amended: the `ID` of a record `buildRawToBuild` returns is the
integer `Atoi` converts the id string to, an integer string denoting a value
of the `int64` range, negative values included; an id string `Atoi` does not
convert yields no record. The same holds for every record of
`respRawToBuilds` and of `Builds`, with the build node it comes from. -/
theorem build_ID_is_converted_id (f j b s : String) (rb : buildRawResp) (raw : respRaw)
    (flag : Bool) (c : Client) (inProgressBuilds : Bool) :
    (∀ r : Build, buildRawToBuild f j b s rb = .ok r →
        Atoi rb.ID = some r.ID ∧ isIntegerString rb.ID = true ∧ inInt64 r.ID) ∧
      (Atoi rb.ID = none → ∀ r : Build, buildRawToBuild f j b s rb ≠ .ok r) ∧
      (∀ r ∈ respRawToBuilds raw flag,
        ∃ (k : Nat) (p : List String) (rb' : buildRawResp),
          (p, rb') ∈ buildsAtLevel k raw ∧ Atoi rb'.ID = some r.ID ∧ inInt64 r.ID) ∧
      (∀ r ∈ (Builds c inProgressBuilds).value,
        ∃ (resp : respRaw) (k : Nat) (p : List String) (rb' : buildRawResp),
          c.doRespRaw "GET" (c.serverURL ++ endpoint) = .ok resp ∧
            (p, rb') ∈ buildsAtLevel k resp ∧ Atoi rb'.ID = some r.ID ∧ inInt64 r.ID) := by
  have one : ∀ {f j b s : String} {rb : buildRawResp} {r : Build},
      buildRawToBuild f j b s rb = .ok r →
        Atoi rb.ID = some r.ID ∧ isIntegerString rb.ID = true ∧ inInt64 r.ID := by
    intro f j b s rb r h
    obtain ⟨a, n, _, hat, hrec⟩ := buildRawToBuild_ok_inv h
    have hid : r.ID = n := by rw [hrec]
    rw [hid]
    exact ⟨hat, isIntegerString_of_Atoi_ok hat, Atoi_inInt64 hat⟩
  have walk : ∀ (raw : respRaw) (flag : Bool), ∀ r ∈ respRawToBuilds raw flag,
      ∃ (k : Nat) (p : List String) (rb' : buildRawResp),
        (p, rb') ∈ buildsAtLevel k raw ∧ Atoi rb'.ID = some r.ID ∧ inInt64 r.ID := by
    intro raw flag r hr
    obtain ⟨k, p, rb', _, _, hmem, _, _, hb⟩ := record_level_of_mem hr
    exact ⟨k, p, rb', hmem, (one hb).1, (one hb).2.2⟩
  refine ⟨fun r h => one h, ?_, walk raw flag, ?_⟩
  · intro hnone r h
    rw [(one h).1] at hnone
    cases hnone
  · intro r hr
    unfold Builds at hr
    cases hdo : c.doRespRaw "GET" (c.serverURL ++ endpoint) with
    | error e => rw [hdo] at hr; cases hr
    | ok resp =>
      rw [hdo] at hr
      obtain ⟨k, p, rb', h⟩ := walk resp (!inProgressBuilds) r hr
      exact ⟨resp, k, p, rb', rfl, h⟩

/-- C14, witness: `sampleBuild` has the id `42`, `buildWithBadID` an id `Atoi`
does not convert. -/
theorem build_ID_is_converted_id_witness :
    (Atoi "42" = some 42 ∧ isIntegerString "42" = true ∧ inInt64 42) ∧
      buildRawToBuild "infra" "" "" "" buildWithBadID ≠
        .ok { FolderName := "infra", JobName := "", BranchName := "", SubBranchName := "",
              ID := 12, BuildableTime := 0, WaitingTime := 1500000000, BlockedTime := 0,
              ExecutingTime := 9000000000, BuildingDuration := 0, Result := "SUCCESS" } ∧
      (∃ (k : Nat) (p : List String) (rb' : buildRawResp),
        (p, rb') ∈ buildsAtLevel k sampleTree ∧ Atoi rb'.ID = some 42 ∧ inInt64 42) :=
  have h := build_ID_is_converted_id "infra" "" "" "" sampleBuild sampleTree false
    sampleClient true
  have h' := build_ID_is_converted_id "infra" "" "" "" buildWithBadID sampleTree false
    sampleClient true
  ⟨h.1 { FolderName := "infra", JobName := "", BranchName := "", SubBranchName := "",
         ID := 42, BuildableTime := 0, WaitingTime := 1500000000, BlockedTime := 0,
         ExecutingTime := 9000000000, BuildingDuration := 0, Result := "SUCCESS" }
      (by decide),
    h'.2.1 (by decide) _,
    h.2.2.1 { FolderName := "infra", JobName := "", BranchName := "", SubBranchName := "",
              ID := 42, BuildableTime := 0, WaitingTime := 1500000000, BlockedTime := 0,
              ExecutingTime := 9000000000, BuildingDuration := 0, Result := "SUCCESS" }
      (by decide)⟩

/-! ## Fields of a record and the two scenarios of Builds (C15, C16, C17) -/

theorem find?_metric_first (pre post : List actionRawResp) (a : actionRawResp)
    (hpre : ∀ x ∈ pre, x.Class ≠ metricClass) (ha : a.Class = metricClass) :
    (pre ++ a :: post).find? (fun a => a.Class == metricClass) = some a := by
  induction pre with
  | nil => simp [List.find?_cons, ha]
  | cons x xs ih =>
    have hx : x.Class ≠ metricClass := hpre x (List.mem_cons_self x xs)
    have hxs : ∀ y ∈ xs, y.Class ≠ metricClass :=
      fun y hy => hpre y (List.mem_cons_of_mem x hy)
    simp [List.find?_cons, hx, ih hxs]

/-- C15: a record `buildRawToBuild` returns carries the four path names it was
given, the node's result string as it is, the integer `Atoi` converts the id
string to, and the converted millisecond fields of the first action of class
`metricClass`. The actions before that one (of another class) and all actions
after it have no effect: the result is the one for the node holding that
action alone. -/
theorem buildRawToBuild_fields (f j b s : String) (rb : buildRawResp) :
    (∀ r : Build, buildRawToBuild f j b s rb = .ok r →
      ∃ a : actionRawResp,
        rb.Actions.find? (fun a => a.Class == metricClass) = some a ∧
          r.FolderName = f ∧ r.JobName = j ∧ r.BranchName = b ∧ r.SubBranchName = s ∧
          r.Result = rb.Result ∧ Atoi rb.ID = some r.ID ∧
          r.BuildableTime = mulInt64 a.BuildableTimeMillis Millisecond ∧
          r.WaitingTime = mulInt64 a.WaitingTimeMillis Millisecond ∧
          r.BlockedTime = mulInt64 a.BlockedTimeMillis Millisecond ∧
          r.ExecutingTime = mulInt64 a.ExecutingTimeMillis Millisecond ∧
          r.BuildingDuration = mulInt64 a.BuildingDurationMillis Millisecond) ∧
      (∀ (pre post : List actionRawResp) (a : actionRawResp),
        (∀ x ∈ pre, x.Class ≠ metricClass) → a.Class = metricClass →
        buildRawToBuild f j b s { rb with Actions := pre ++ a :: post } =
          buildRawToBuild f j b s { rb with Actions := [a] }) := by
  constructor
  · intro r h
    obtain ⟨a, n, hfind, hat, hrec⟩ := buildRawToBuild_ok_inv h
    refine ⟨a, hfind, ?_⟩
    rw [hrec]
    exact ⟨rfl, rfl, rfl, rfl, rfl, hat, rfl, rfl, rfl, rfl, rfl⟩
  · intro pre post a hpre ha
    rw [buildRawToBuild_eq, buildRawToBuild_eq]
    have h1 := find?_metric_first pre post a hpre ha
    have h2 := find?_metric_first [] [] a (fun x hx => by cases hx) ha
    simp only [List.nil_append] at h2
    simp only [h1, h2]

/-- C15, witness: `sampleBuild`, and a node whose matching action stands
between an action of another class and a second matching action. -/
theorem buildRawToBuild_fields_witness :
    (∃ a : actionRawResp,
        sampleBuild.Actions.find? (fun a => a.Class == metricClass) = some a ∧
          "infra" = "infra" ∧ "api" = "api" ∧ "main" = "main" ∧ "" = "" ∧
          "SUCCESS" = sampleBuild.Result ∧ Atoi sampleBuild.ID = some 42 ∧
          (0 : Int) = mulInt64 a.BuildableTimeMillis Millisecond ∧
          (1500000000 : Int) = mulInt64 a.WaitingTimeMillis Millisecond ∧
          (0 : Int) = mulInt64 a.BlockedTimeMillis Millisecond ∧
          (9000000000 : Int) = mulInt64 a.ExecutingTimeMillis Millisecond ∧
          (0 : Int) = mulInt64 a.BuildingDurationMillis Millisecond) ∧
      buildRawToBuild "infra" "api" "main" ""
          { ID := "42", Actions := [causeAction, sampleAction, laterAction],
            Result := "SUCCESS" } =
        buildRawToBuild "infra" "api" "main" ""
          { ID := "42", Actions := [sampleAction], Result := "SUCCESS" } :=
  ⟨(buildRawToBuild_fields "infra" "api" "main" "" sampleBuild).1
      { FolderName := "infra", JobName := "api", BranchName := "main", SubBranchName := "",
        ID := 42, BuildableTime := 0, WaitingTime := 1500000000, BlockedTime := 0,
        ExecutingTime := 9000000000, BuildingDuration := 0, Result := "SUCCESS" }
      (by decide),
    (buildRawToBuild_fields "infra" "api" "main" "" sampleBuild).2 [causeAction]
      [laterAction] sampleAction (by decide) (by decide)⟩

/-- C16: when the transport answers with the response of the scenario (one job
`infra` without children, one build with id `42`, result `SUCCESS` and one
matching action with a waiting time of 1500 ms and an executing time of
9000 ms), `Builds(false)` returns the nil error and exactly one record, with
`WaitingTime` 1.5 s, `ExecutingTime` 9 s and the other durations zero. -/
theorem Builds_scenario_finished (c : Client)
    (hdo : c.doRespRaw "GET" (c.serverURL ++ endpoint) = .ok infraResponse) :
    (Builds c false).value =
        [{ FolderName := "infra", JobName := "", BranchName := "", SubBranchName := "",
           ID := 42, BuildableTime := 0, WaitingTime := 1500000000, BlockedTime := 0,
           ExecutingTime := 9000000000, BuildingDuration := 0, Result := "SUCCESS" }] ∧
      (Builds c false).err = none := by
  unfold Builds
  rw [hdo]
  refine ⟨?_, rfl⟩
  show respRawToBuilds infraResponse true = _
  decide

/-- C16, witness: the client `infraClient`. -/
theorem Builds_scenario_finished_witness :
    (Builds infraClient false).value =
        [{ FolderName := "infra", JobName := "", BranchName := "", SubBranchName := "",
           ID := 42, BuildableTime := 0, WaitingTime := 1500000000, BlockedTime := 0,
           ExecutingTime := 9000000000, BuildingDuration := 0, Result := "SUCCESS" }] ∧
      (Builds infraClient false).err = none :=
  Builds_scenario_finished infraClient rfl

/-- C17, counterexample: for the in-progress build of the scenario
`Builds(false)` returns the empty list and `Builds(true)` a list with the
record of the build, the opposite of what is claimed. -/
theorem Builds_in_progress_flag_is_not_inverted :
    (Builds infraInProgressClient false).value = [] ∧
      (Builds infraInProgressClient true).value =
        [{ FolderName := "infra", JobName := "", BranchName := "", SubBranchName := "",
           ID := 42, BuildableTime := 0, WaitingTime := 1500000000, BlockedTime := 0,
           ExecutingTime := 9000000000, BuildingDuration := 0, Result := "" }] := by
  decide

/-- C17, amended: when the transport answers with the response of the scenario
whose build has the empty result, `Builds(true)` returns a list containing the
record of the build and `Builds(false)` a list that excludes it. -/
theorem Builds_scenario_in_progress (c : Client)
    (hdo : c.doRespRaw "GET" (c.serverURL ++ endpoint) = .ok infraInProgressResponse) :
    (Builds c true).value =
        [{ FolderName := "infra", JobName := "", BranchName := "", SubBranchName := "",
           ID := 42, BuildableTime := 0, WaitingTime := 1500000000, BlockedTime := 0,
           ExecutingTime := 9000000000, BuildingDuration := 0, Result := "" }] ∧
      (Builds c false).value = [] := by
  unfold Builds
  rw [hdo]
  constructor
  · show respRawToBuilds infraInProgressResponse false = _
    decide
  · show respRawToBuilds infraInProgressResponse true = _
    decide

/-- C17, witness: the client `infraInProgressClient`. -/
theorem Builds_scenario_in_progress_witness :
    (Builds infraInProgressClient true).value =
        [{ FolderName := "infra", JobName := "", BranchName := "", SubBranchName := "",
           ID := 42, BuildableTime := 0, WaitingTime := 1500000000, BlockedTime := 0,
           ExecutingTime := 9000000000, BuildingDuration := 0, Result := "" }] ∧
      (Builds infraInProgressClient false).value = [] :=
  Builds_scenario_in_progress infraInProgressClient rfl

/-! ## The diagnostics of the walk -/

theorem foldl_log_eq {α : Type} (F : WalkState → α → WalkState) (g : α → List String)
    (h : ∀ st x, (F st x).log = st.log ++ g x) :
    ∀ (xs : List α) (st : WalkState), (xs.foldl F st).log = st.log ++ xs.flatMap g := by
  intro xs
  induction xs with
  | nil => intro st; simp
  | cons x xs ih => intro st; simp [List.foldl_cons, ih, h, List.flatMap_cons, List.append_assoc]

theorem buildLoop_log (flag : Bool) (f j b s : String)
    (msg : buildRawResp → GoError → String) (builds : List buildRawResp) (st : WalkState) :
    (builds.foldl (fun st rawBuild =>
      if flag && buildIsInProgress rawBuild then st
      else
        match buildRawToBuild f j b s rawBuild with
        | .error err => { st with log := st.log ++ [msg rawBuild err] }
        | .ok b => { st with res := st.res ++ [b] }) st).log =
      st.log ++ builds.filterMap (fun rawBuild =>
        if flag && buildIsInProgress rawBuild then none
        else
          match buildRawToBuild f j b s rawBuild with
          | .error err => some (msg rawBuild err)
          | .ok _ => none) := by
  induction builds generalizing st with
  | nil => simp
  | cons x xs ih =>
    rw [List.foldl_cons, ih, List.filterMap_cons]
    by_cases hc : (flag && buildIsInProgress x) = true
    · simp [hc]
    · cases hb : buildRawToBuild f j b s x <;> simp [hc, hb]

theorem diagnosticsOf_level1 (flag : Bool) (f : String) (bs : List buildRawResp) :
    bs.filterMap (fun rawBuild =>
        if flag && buildIsInProgress rawBuild then none
        else
          match buildRawToBuild f "" "" "" rawBuild with
          | .error err => some ("skipping build " ++ f ++ "/" ++ rawBuild.ID ++ ": " ++ err)
          | .ok _ => none) =
      diagnosticsOf flag [f] bs := by
  rfl

theorem diagnosticsOf_level2 (flag : Bool) (f j : String) (bs : List buildRawResp) :
    bs.filterMap (fun rawBuild =>
        if flag && buildIsInProgress rawBuild then none
        else
          match buildRawToBuild f j "" "" rawBuild with
          | .error err =>
            some ("skipping build " ++ f ++ "/" ++ j ++ "/" ++ rawBuild.ID ++ ": " ++ err)
          | .ok _ => none) =
      diagnosticsOf flag [f, j] bs := by
  rfl

theorem diagnosticsOf_level3 (flag : Bool) (f j b : String) (bs : List buildRawResp) :
    bs.filterMap (fun rawBuild =>
        if flag && buildIsInProgress rawBuild then none
        else
          match buildRawToBuild f j b "" rawBuild with
          | .error err =>
            some ("skipping build " ++ f ++ "/" ++ j ++ "/" ++ b ++ "/" ++ rawBuild.ID ++
              ": " ++ err)
          | .ok _ => none) =
      diagnosticsOf flag [f, j, b] bs := by
  rfl

theorem diagnosticsOf_level4 (flag : Bool) (f j b s : String) (bs : List buildRawResp) :
    bs.filterMap (fun rawBuild =>
        if flag && buildIsInProgress rawBuild then none
        else
          match buildRawToBuild f j b s rawBuild with
          | .error err =>
            some ("skipping build " ++ f ++ "/" ++ j ++ "/" ++ b ++ "/" ++ s ++ "/" ++
              rawBuild.ID ++ ": " ++ err)
          | .ok _ => none) =
      diagnosticsOf flag [f, j, b, s] bs := by
  rfl

theorem respRawToBuildsLog_eq_walk (raw : respRaw) (flag : Bool) :
    respRawToBuildsLog raw flag =
      raw.Jobs.flatMap (walkWith (diagnosticsOf flag) 4 []) := by
  unfold respRawToBuildsLog respRawToBuildsRun
  rw [foldl_log_eq _ (walkWith (diagnosticsOf flag) 4 [])]
  · simp
  intro st job
  try dsimp only
  rw [foldl_log_eq _ (walkWith (diagnosticsOf flag) 3 [job.Name])]
  · rw [buildLoop_log flag job.Name "" "" ""
      (fun rb err => "skipping build " ++ job.Name ++ "/" ++ rb.ID ++ ": " ++ err),
      diagnosticsOf_level1]
    simp [walkWith, List.append_assoc]
  intro st j2
  try dsimp only
  rw [foldl_log_eq _ (walkWith (diagnosticsOf flag) 2 [job.Name, j2.Name])]
  · rw [buildLoop_log flag job.Name j2.Name "" ""
      (fun rb err => "skipping build " ++ job.Name ++ "/" ++ j2.Name ++ "/" ++ rb.ID ++
        ": " ++ err), diagnosticsOf_level2]
    simp [walkWith, List.append_assoc]
  intro st j3
  try dsimp only
  rw [foldl_log_eq _ (walkWith (diagnosticsOf flag) 1 [job.Name, j2.Name, j3.Name])]
  · rw [buildLoop_log flag job.Name j2.Name j3.Name ""
      (fun rb err => "skipping build " ++ job.Name ++ "/" ++ j2.Name ++ "/" ++ j3.Name ++
        "/" ++ rb.ID ++ ": " ++ err), diagnosticsOf_level3]
    simp [walkWith, List.append_assoc]
  intro st j4
  rw [buildLoop_log flag job.Name j2.Name j3.Name j4.Name
    (fun rb err => "skipping build " ++ job.Name ++ "/" ++ j2.Name ++ "/" ++ j3.Name ++
      "/" ++ j4.Name ++ "/" ++ rb.ID ++ ": " ++ err), diagnosticsOf_level4]
  simp [walkWith]

theorem levelWith_succ_succ {β : Type} (g : List String → List buildRawResp → List β)
    (k : Nat) (path : List String) (node : jobRawResp) :
    levelWith g (k + 2) path node =
      node.MultiBranchJobs.flatMap (levelWith g (k + 1) (path ++ [node.Name])) := rfl

theorem children_upToWith_perm {β : Type} (g : List String → List buildRawResp → List β)
    (path : List String) (node : jobRawResp) :
    ∀ n : Nat,
      List.Perm
        (levelWith g 1 path node ++
          node.MultiBranchJobs.flatMap (upToWith g n (path ++ [node.Name])))
        (upToWith g (n + 1) path node) := by
  intro n
  induction n with
  | zero =>
    simp only [upToWith, flatMap_nil_fun, List.append_nil, List.nil_append]
    exact List.Perm.refl _
  | succ n ih =>
    have hsplit : List.Perm
        (node.MultiBranchJobs.flatMap (upToWith g (n + 1) (path ++ [node.Name])))
        (node.MultiBranchJobs.flatMap (upToWith g n (path ++ [node.Name])) ++
          node.MultiBranchJobs.flatMap (levelWith g (n + 1) (path ++ [node.Name]))) :=
      (List.flatMap_append_perm node.MultiBranchJobs (upToWith g n (path ++ [node.Name]))
        (levelWith g (n + 1) (path ++ [node.Name]))).symm
    have h1 := List.Perm.append_left (levelWith g 1 path node) hsplit
    rw [← List.append_assoc] at h1
    have h2 := List.Perm.append_right
      (node.MultiBranchJobs.flatMap (levelWith g (n + 1) (path ++ [node.Name]))) ih
    have h3 := h1.trans h2
    rw [← levelWith_succ_succ] at h3
    exact h3

theorem walkWith_perm_upToWith {β : Type} (g : List String → List buildRawResp → List β) :
    ∀ (n : Nat) (path : List String) (node : jobRawResp),
      List.Perm (walkWith g n path node) (upToWith g n path node) := by
  intro n
  induction n with
  | zero => intro path node; exact List.Perm.refl _
  | succ n ih =>
    intro path node
    have hkids : List.Perm
        (node.MultiBranchJobs.flatMap (walkWith g n (path ++ [node.Name])))
        (node.MultiBranchJobs.flatMap (upToWith g n (path ++ [node.Name]))) :=
      List.Perm.flatMap_left _ (fun kid _ => ih (path ++ [node.Name]) kid)
    have h1 := List.Perm.append_left (g (path ++ [node.Name]) node.WorkflowJobBuilds) hkids
    exact h1.trans (children_upToWith_perm g path node n)

theorem levelWith_eq_nodes {β : Type} (g : List String → List buildRawResp → List β) :
    ∀ (k : Nat) (path : List String) (node : jobRawResp),
      levelWith g (k + 1) path node =
        (nodesAtLevel (k + 1) path node).flatMap (fun pn => g pn.1 pn.2.WorkflowJobBuilds) := by
  intro k
  induction k with
  | zero => intro path node; simp [levelWith, nodesAtLevel]
  | succ k ih =>
    intro path node
    rw [levelWith_succ_succ]
    simp only [nodesAtLevel, List.flatMap_assoc]
    congr 1
    funext kid
    exact ih (path ++ [node.Name]) kid

theorem diagnostics_level_eq (flag : Bool) (k : Nat) (raw : respRaw) :
    raw.Jobs.flatMap (levelWith (diagnosticsOf flag) (k + 1) []) =
      (buildsAtLevel (k + 1) raw).filterMap (diagnosticAt flag) := by
  unfold buildsAtLevel
  rw [filterMap_flatMap_map, List.flatMap_assoc]
  congr 1
  funext job
  rw [levelWith_eq_nodes]
  rfl

theorem respRawToBuildsLog_perm_levels (raw : respRaw) (flag : Bool) :
    List.Perm (respRawToBuildsLog raw flag)
      ((buildsAtLevel 1 raw).filterMap (diagnosticAt flag) ++
        (buildsAtLevel 2 raw).filterMap (diagnosticAt flag) ++
        (buildsAtLevel 3 raw).filterMap (diagnosticAt flag) ++
        (buildsAtLevel 4 raw).filterMap (diagnosticAt flag)) := by
  rw [respRawToBuildsLog_eq_walk]
  have h0 : List.Perm (raw.Jobs.flatMap (walkWith (diagnosticsOf flag) 4 []))
      (raw.Jobs.flatMap (upToWith (diagnosticsOf flag) 4 [])) :=
    List.Perm.flatMap_left _
      (fun job _ => walkWith_perm_upToWith (diagnosticsOf flag) 4 [] job)
  refine h0.trans ?_
  rw [← diagnostics_level_eq, ← diagnostics_level_eq, ← diagnostics_level_eq,
    ← diagnostics_level_eq]
  have e : upToWith (diagnosticsOf flag) 4 [] = fun job =>
      ((levelWith (diagnosticsOf flag) 1 [] job ++ levelWith (diagnosticsOf flag) 2 [] job) ++
        levelWith (diagnosticsOf flag) 3 [] job) ++ levelWith (diagnosticsOf flag) 4 [] job := by
    funext job
    simp [upToWith]
  rw [e]
  have s1 := (List.flatMap_append_perm raw.Jobs
    (fun job => (levelWith (diagnosticsOf flag) 1 [] job ++
      levelWith (diagnosticsOf flag) 2 [] job) ++ levelWith (diagnosticsOf flag) 3 [] job)
    (levelWith (diagnosticsOf flag) 4 [])).symm
  have s2 := (List.flatMap_append_perm raw.Jobs
    (fun job => levelWith (diagnosticsOf flag) 1 [] job ++
      levelWith (diagnosticsOf flag) 2 [] job)
    (levelWith (diagnosticsOf flag) 3 [])).symm
  have s3 := (List.flatMap_append_perm raw.Jobs
    (levelWith (diagnosticsOf flag) 1 []) (levelWith (diagnosticsOf flag) 2 [])).symm
  exact s1.trans
    (List.Perm.append_right _ (s2.trans (List.Perm.append_right _ s3)))

theorem records_plus_diagnostics (flag : Bool) (l : List (List String × buildRawResp)) :
    (l.filterMap (extractAt flag)).length + (l.filterMap (diagnosticAt flag)).length =
      l.countP (isVisited flag) := by
  induction l with
  | nil => rfl
  | cons x xs ih =>
    rw [List.filterMap_cons, List.filterMap_cons, List.countP_cons, ← ih]
    unfold extractAt diagnosticAt isVisited
    by_cases hc : (flag && buildIsInProgress x.2) = true
    · simp [hc]
    · cases hb : buildRawToBuild (x.1.getD 0 "") (x.1.getD 1 "") (x.1.getD 2 "")
          (x.1.getD 3 "") x.2 with
      | error e => simp [hc, hb]; omega
      | ok r => simp [hc, hb]; omega

/-! ## Records and diagnostics account for every visited build (C18) -/

theorem walkFrom_eq_walkWith (flag : Bool) :
    ∀ (n : Nat) (path : List String) (node : jobRawResp),
      walkFrom flag n path node = walkWith (extractBuilds flag) n path node := by
  intro n
  induction n with
  | zero => intro path node; rfl
  | succ n ih =>
    intro path node
    rw [walkFrom, walkWith]
    congr 1
    congr 1
    funext kid
    exact ih (path ++ [node.Name]) kid

theorem walkWith_insert {β : Type} (g : List String → List buildRawResp → List β)
    {x : buildRawResp}
    (hg : ∀ (path : List String) (B₁ B₂ : List buildRawResp),
      g path (B₁ ++ x :: B₂) = g path (B₁ ++ B₂))
    {k : Nat} {job job' : jobRawResp} (h : InsertedInJob x k job job') :
    ∀ (levels : Nat) (path : List String),
      walkWith g levels path job' = walkWith g levels path job := by
  induction h with
  | inNode n B₁ B₂ K =>
    intro levels path
    cases levels with
    | zero => rfl
    | succ m =>
      simp only [walkWith, jobRawResp.Name, jobRawResp.WorkflowJobBuilds,
        jobRawResp.MultiBranchJobs, hg]
  | inChild n B K₁ K₂ _ ih =>
    intro levels path
    cases levels with
    | zero => rfl
    | succ m =>
      simp only [walkWith, jobRawResp.Name, jobRawResp.WorkflowJobBuilds,
        jobRawResp.MultiBranchJobs, List.flatMap_append, List.flatMap_cons, ih]

theorem extractBuilds_insert_skipped {x : buildRawResp} (hx : x.Result = "")
    (path : List String) (B₁ B₂ : List buildRawResp) :
    extractBuilds true path (B₁ ++ x :: B₂) = extractBuilds true path (B₁ ++ B₂) := by
  unfold extractBuilds
  rw [List.filterMap_append, List.filterMap_append, List.filterMap_cons]
  simp [buildIsInProgress, hx]

theorem diagnosticsOf_insert_skipped {x : buildRawResp} (hx : x.Result = "")
    (path : List String) (B₁ B₂ : List buildRawResp) :
    diagnosticsOf true path (B₁ ++ x :: B₂) = diagnosticsOf true path (B₁ ++ B₂) := by
  unfold diagnosticsOf
  rw [List.filterMap_append, List.filterMap_append, List.filterMap_cons]
  simp [diagnosticAt, buildIsInProgress, hx]

theorem skipped_build_leaves_no_trace {x : buildRawResp} (hx : x.Result = "") {k : Nat}
    {raw raw' : respRaw} (h : InsertedAtLevel x k raw raw') :
    respRawToBuildsLog raw' true = respRawToBuildsLog raw true ∧
      respRawToBuilds raw' true = respRawToBuilds raw true := by
  obtain ⟨J₁, job, job', J₂, h₁, h₂, hins⟩ := h
  constructor
  · rw [respRawToBuildsLog_eq_walk, respRawToBuildsLog_eq_walk, h₁, h₂]
    simp only [List.flatMap_append, List.flatMap_cons,
      walkWith_insert (diagnosticsOf true) (diagnosticsOf_insert_skipped hx) hins]
  · rw [respRawToBuilds_eq_walk, respRawToBuilds_eq_walk, h₁, h₂]
    simp only [List.flatMap_append, List.flatMap_cons, walkFrom_eq_walkWith,
      walkWith_insert (extractBuilds true) (extractBuilds_insert_skipped hx) hins]

theorem diagnostic_of_level {flag : Bool} {raw : respRaw} {k : Nat} {line : String}
    (h : line ∈ (buildsAtLevel k raw).filterMap (diagnosticAt flag)) :
    ∃ (p : List String) (rb : buildRawResp) (err : GoError),
      (p, rb) ∈ buildsAtLevel k raw ∧ p.length = k ∧ isVisited flag (p, rb) = true ∧
        buildRawToBuild (p.getD 0 "") (p.getD 1 "") (p.getD 2 "") (p.getD 3 "") rb =
          .error err ∧
        line = "skipping build " ++ String.intercalate "/" p ++ "/" ++ rb.ID ++ ": " ++ err := by
  rw [List.mem_filterMap] at h
  obtain ⟨⟨p, rb⟩, hmem, hd⟩ := h
  have hlen := buildsAtLevel_path_length hmem
  dsimp only [diagnosticAt] at hd
  cases hc : (flag && buildIsInProgress rb) with
  | true => rw [hc, if_pos rfl] at hd; cases hd
  | false =>
    rw [hc, if_neg (by decide)] at hd
    cases hb : buildRawToBuild (p.getD 0 "") (p.getD 1 "") (p.getD 2 "") (p.getD 3 "") rb with
    | ok r => rw [hb] at hd; cases hd
    | error err =>
      rw [hb] at hd
      injection hd with hd
      refine ⟨p, rb, err, hmem, hlen, ?_, hb, hd.symm⟩
      show (!(flag && buildIsInProgress rb)) = true
      rw [hc]
      rfl

/-- C18: the records `respRawToBuilds` returns and the diagnostics it logs are
together as many as the build nodes of levels 1 to 4 that are not skipped as
in progress. Every diagnostic belongs to such a build node on which
`buildRawToBuild` fails, and reads `skipping build`, the slash-joined names of
the nodes from the top-level job down to the node holding the build, a slash,
the build id, a colon and the error. A build with the empty result, put
anywhere into the tree, adds no diagnostic and no record when in-progress
builds are removed, whatever its id and its actions. -/
theorem visited_builds_accounted_once (raw : respRaw) (flag : Bool) :
    (respRawToBuilds raw flag).length + (respRawToBuildsLog raw flag).length =
        (buildsAtLevel 1 raw).countP (isVisited flag) +
          (buildsAtLevel 2 raw).countP (isVisited flag) +
          (buildsAtLevel 3 raw).countP (isVisited flag) +
          (buildsAtLevel 4 raw).countP (isVisited flag) ∧
      (∀ line ∈ respRawToBuildsLog raw flag,
        ∃ (k : Nat) (p : List String) (rb : buildRawResp) (err : GoError),
          1 ≤ k ∧ k ≤ 4 ∧ (p, rb) ∈ buildsAtLevel k raw ∧ p.length = k ∧
            isVisited flag (p, rb) = true ∧
            buildRawToBuild (p.getD 0 "") (p.getD 1 "") (p.getD 2 "") (p.getD 3 "") rb =
              .error err ∧
            line =
              "skipping build " ++ String.intercalate "/" p ++ "/" ++ rb.ID ++ ": " ++ err) ∧
      (∀ (x : buildRawResp) (k : Nat) (raw' : respRaw), x.Result = "" →
        InsertedAtLevel x k raw raw' →
        respRawToBuildsLog raw' true = respRawToBuildsLog raw true ∧
          respRawToBuilds raw' true = respRawToBuilds raw true) := by
  refine ⟨?_, ?_, fun x k raw' hx hins => skipped_build_leaves_no_trace hx hins⟩
  · rw [(respRawToBuilds_perm_levels raw flag).length_eq,
      (respRawToBuildsLog_perm_levels raw flag).length_eq]
    simp only [List.length_append, ← records_plus_diagnostics]
    omega
  · intro line hl
    rw [(respRawToBuildsLog_perm_levels raw flag).mem_iff] at hl
    simp only [List.mem_append] at hl
    rcases hl with ((h | h) | h) | h
    · obtain ⟨p, rb, err, h⟩ := diagnostic_of_level h
      exact ⟨1, p, rb, err, by decide, by decide, h⟩
    · obtain ⟨p, rb, err, h⟩ := diagnostic_of_level h
      exact ⟨2, p, rb, err, by decide, by decide, h⟩
    · obtain ⟨p, rb, err, h⟩ := diagnostic_of_level h
      exact ⟨3, p, rb, err, by decide, by decide, h⟩
    · obtain ⟨p, rb, err, h⟩ := diagnostic_of_level h
      exact ⟨4, p, rb, err, by decide, by decide, h⟩

/-- C18, witness: `noisyTree` has five build nodes, of which three yield a
record and two a diagnostic; the diagnostic of its level-3 build with the id
`x12`; and `brokenInProgressBuild` put in front of the builds of its top-level
job. -/
theorem visited_builds_accounted_once_witness :
    (respRawToBuilds noisyTree false).length + (respRawToBuildsLog noisyTree false).length =
        2 + 1 + 2 + 0 ∧
      (∃ (k : Nat) (p : List String) (rb : buildRawResp) (err : GoError),
        1 ≤ k ∧ k ≤ 4 ∧ (p, rb) ∈ buildsAtLevel k noisyTree ∧ p.length = k ∧
          isVisited false (p, rb) = true ∧
          buildRawToBuild (p.getD 0 "") (p.getD 1 "") (p.getD 2 "") (p.getD 3 "") rb =
            .error err ∧
          "skipping build infra/api/main/x12: could not convert id 'x12' to int64" =
            "skipping build " ++ String.intercalate "/" p ++ "/" ++ rb.ID ++ ": " ++ err) ∧
      (respRawToBuildsLog
            { Jobs :=
                [.mk "infra" [brokenInProgressBuild, sampleBuild, buildWithoutMetrics]
                  [.mk "api" [sampleBuild] [.mk "main" [buildWithBadID, sampleBuild] []]]] }
            true =
          respRawToBuildsLog noisyTree true ∧
        respRawToBuilds
            { Jobs :=
                [.mk "infra" [brokenInProgressBuild, sampleBuild, buildWithoutMetrics]
                  [.mk "api" [sampleBuild] [.mk "main" [buildWithBadID, sampleBuild] []]]] }
            true =
          respRawToBuilds noisyTree true) :=
  ⟨(visited_builds_accounted_once noisyTree false).1.trans (by decide),
    (visited_builds_accounted_once noisyTree false).2.1
      "skipping build infra/api/main/x12: could not convert id 'x12' to int64" (by decide),
    (visited_builds_accounted_once noisyTree true).2.2 brokenInProgressBuild 1 _ rfl
      ⟨[], _, _, [], rfl, rfl,
        InsertedInJob.inNode "infra" [] [sampleBuild, buildWithoutMetrics]
          [.mk "api" [sampleBuild] [.mk "main" [buildWithBadID, sampleBuild] []]]⟩⟩

/-! ## Independence of top-level jobs (C19) and null entries (C20) -/

/-- C19: the sequence for the top-level jobs `J₁ ++ J₂` is the sequence for
`J₁` followed by the sequence for `J₂`, and the sequence for no job at all is
empty. -/
theorem respRawToBuilds_append (J₁ J₂ : List jobRawResp) (flag : Bool) :
    respRawToBuilds { Jobs := J₁ ++ J₂ } flag =
        respRawToBuilds { Jobs := J₁ } flag ++ respRawToBuilds { Jobs := J₂ } flag ∧
      respRawToBuilds { Jobs := [] } flag = [] := by
  constructor
  · rw [respRawToBuilds_eq_walk, respRawToBuilds_eq_walk, respRawToBuilds_eq_walk]
    exact List.flatMap_append _ _ _
  · rfl

/-- C20, the code at the failing inputs: a nil job, a nil build (with either
flag value) and a nil action in front of the matching one make
`respRawToBuilds` panic instead of returning, even though the response also
holds the well-formed `sampleBuild`; a nil action in a skipped in-progress
build is not reached; and a nil stage makes `respWFAPIRawToStages` panic. -/
theorem null_entries_panic :
    Ptr.respRawToBuilds
        { Jobs := [some (.mk "infra" [some (toPtrBuild sampleBuild)] []), none] } false =
      none ∧
    Ptr.respRawToBuilds
        { Jobs := [some (.mk "infra" [some (toPtrBuild sampleBuild), none] [])] } false =
      none ∧
    Ptr.respRawToBuilds
        { Jobs := [some (.mk "infra" [some (toPtrBuild sampleBuild), none] [])] } true =
      none ∧
    Ptr.respRawToBuilds
        { Jobs := [some (.mk "infra"
            [some (toPtrBuild sampleBuild),
             some { ID := "43", Actions := [none, some sampleAction], Result := "SUCCESS" }]
            [])] } true =
      none ∧
    Ptr.respRawToBuilds
        { Jobs := [some (.mk "infra"
            [some (toPtrBuild sampleBuild),
             some { ID := "43", Actions := [none, some sampleAction], Result := "" }]
            [])] } true =
      some [{ FolderName := "infra", JobName := "", BranchName := "", SubBranchName := "",
              ID := 42, BuildableTime := 0, WaitingTime := 1500000000, BlockedTime := 0,
              ExecutingTime := 9000000000, BuildingDuration := 0, Result := "SUCCESS" }] ∧
    Ptr.respWFAPIRawToStages
        { Stages := [some { Name := "checkout", Status := "SUCCESS", DurationMillis := 250 },
                     none] } =
      none := by
  decide

end Jenkins
